import Mathlib

/-!
Verification of the match-3 core of `godot-poc-rs`.

The Rust sources are embedded shallowly:
* `symbols.rs` — `SymbolType`, `Symbol`, `Grid`;
* `matching.rs` — `Match`, `MatchFinder`;
* `board.rs`    — the grid-level part of `GameBoard` (gravity, scoring, combo).

Randomness (`rand::thread_rng`) is modelled by passing the sequence of drawn
values explicitly (a stream `Nat → SymbolType` plus a cursor, or the raw
drawn indices).  Machine integers are modelled as `Nat`/`Int`; the `as usize`
cast of an `i32` is the two's-complement reinterpretation `intToUsize`.
Fallible indexing (`Vec` indexing that panics in Rust) is modelled with
`List.getD`/`List.get?`; the in-bounds invariants making those lookups safe
are proved as theorems.
-/

set_option maxHeartbeats 1000000

namespace Match3

/-- The six symbol colours of `symbols.rs::SymbolType`. -/
inductive SymbolType : Type where
  | Red
  | Blue
  | Green
  | Yellow
  | Purple
  | Orange
deriving DecidableEq, Repr

/-- The constant `SymbolType::ALL`. -/
def SymbolType.ALL : List SymbolType :=
  [.Red, .Blue, .Green, .Yellow, .Purple, .Orange]

/-- Embeds `SymbolType::index`. -/
def SymbolType.index : SymbolType → Nat
  | .Red => 0
  | .Blue => 1
  | .Green => 2
  | .Yellow => 3
  | .Purple => 4
  | .Orange => 5

/-- Embeds `SymbolType::from_index` (`ALL[index % ALL.len()]`). -/
def SymbolType.from_index (i : Nat) : SymbolType :=
  SymbolType.ALL.getD (i % SymbolType.ALL.length) .Red

/-- Successor in the colour cycle, as the spec words it: the next type by
index modulo 6.  Used to compare `with_type`'s face table against the spec. -/
def SymbolType.succ (t : SymbolType) : SymbolType :=
  SymbolType.from_index (t.index + 1)

/-- Embeds `symbols.rs::Symbol`.  `rotation_state` is a `u8` in the source;
it is a `Nat` here, with the `< 4` invariant proved separately. -/
structure Symbol where
  faces : List SymbolType
  rotation_state : Nat
  grid_pos : Int × Int
  selected : Bool
  marked_for_clear : Bool
deriving DecidableEq, Repr

/-- Embeds `Symbol::new`.  The four arguments are the values drawn by
`rng.gen_range(0..6)` for the four faces. -/
def Symbol.new (grid_pos : Int × Int) (a b c d : Nat) : Symbol :=
  { faces := [.from_index a, .from_index b, .from_index c, .from_index d]
    rotation_state := 0
    grid_pos := grid_pos
    selected := false
    marked_for_clear := false }

/-- Embeds `Symbol::with_type` with its fixed per-type face table. -/
def Symbol.with_type (grid_pos : Int × Int) (symbol_type : SymbolType) : Symbol :=
  { faces :=
      match symbol_type with
      | .Red => [.Red, .Blue, .Green, .Yellow]
      | .Blue => [.Blue, .Green, .Yellow, .Purple]
      | .Green => [.Green, .Yellow, .Purple, .Orange]
      | .Yellow => [.Yellow, .Purple, .Orange, .Red]
      | .Purple => [.Purple, .Orange, .Red, .Blue]
      | .Orange => [.Orange, .Red, .Blue, .Green]
    rotation_state := 0
    grid_pos := grid_pos
    selected := false
    marked_for_clear := false }

/-- Embeds `Symbol::current_type` (`self.faces[self.rotation_state]`).
The Rust indexing panics out of bounds; here the lookup totalises with a
default, and the in-bounds invariant making the two agree is proved in the
safety theorem for the phase invariant. -/
def Symbol.current_type (s : Symbol) : SymbolType :=
  s.faces.getD s.rotation_state .Red

/-- Embeds `Symbol::rotate` (`rotation_state = (rotation_state + 1) % 4`). -/
def Symbol.rotate (s : Symbol) : Symbol :=
  { s with rotation_state := (s.rotation_state + 1) % 4 }

/-- Embeds `symbols.rs::Grid`. -/
structure Grid where
  width : Nat
  height : Nat
  cells : List (Option Symbol)
deriving DecidableEq, Repr

/-- Embeds `Grid::new`. -/
def Grid.new (width height : Nat) : Grid :=
  { width := width, height := height, cells := List.replicate (width * height) none }

/-- Embeds `Grid::index` (`y * width + x`). -/
def Grid.index (g : Grid) (x y : Nat) : Nat :=
  y * g.width + x

/-- Embeds `Grid::get`, with the `Vec` indexing totalised by `List.getD`. -/
def Grid.get (g : Grid) (x y : Nat) : Option Symbol :=
  if x < g.width ∧ y < g.height then g.cells.getD (g.index x y) none else none

/-- Embeds `Grid::set`. -/
def Grid.set (g : Grid) (x y : Nat) (symbol : Option Symbol) : Grid :=
  if x < g.width ∧ y < g.height then
    { g with cells := g.cells.set (g.index x y) symbol }
  else g

/-- Embeds `Grid::take` (`cells[idx].take()`): returns the removed symbol
together with the updated grid. -/
def Grid.take (g : Grid) (x y : Nat) : Option Symbol × Grid :=
  if x < g.width ∧ y < g.height then
    (g.cells.getD (g.index x y) none, { g with cells := g.cells.set (g.index x y) none })
  else (none, g)

/-- Embeds `Grid::rotate_all` (rotate every occupied cell's symbol). -/
def Grid.rotate_all (g : Grid) : Grid :=
  { g with cells := g.cells.map (Option.map Symbol.rotate) }

/-- Structural well-formedness of a grid: the cell vector has exactly
`width * height` entries (true of every grid the source constructs). -/
def Grid.wf (g : Grid) : Prop :=
  g.cells.length = g.width * g.height

instance (g : Grid) : Decidable g.wf := by
  unfold Grid.wf
  infer_instance

/-- Boolean check that every symbol stored in the grid has its rotation
phase strictly below 4. -/
def Grid.symbolsWf (g : Grid) : Bool :=
  g.cells.all (fun c => c.all (fun s => s.rotation_state < 4))

/-! ### Basic grid lemmas -/

theorem Grid.index_inj {w : Nat} {x y x' y' : Nat} (hx : x < w) (hx' : x' < w)
    (h : y * w + x = y' * w + x') : x = x' ∧ y = y' := by
  have hyy : y = y' := by
    rcases Nat.lt_trichotomy y y' with hlt | heq | hgt
    · exfalso
      have h1 : y * w + x < (y + 1) * w := by
        simpa [Nat.succ_mul] using Nat.add_lt_add_left hx (y * w)
      have h2 : (y + 1) * w ≤ y' * w := Nat.mul_le_mul_right w hlt
      omega
    · exact heq
    · exfalso
      have h1 : y' * w + x' < (y' + 1) * w := by
        simpa [Nat.succ_mul] using Nat.add_lt_add_left hx' (y' * w)
      have h2 : (y' + 1) * w ≤ y * w := Nat.mul_le_mul_right w hgt
      omega
  subst hyy
  exact ⟨by omega, rfl⟩

theorem Grid.index_lt {g : Grid} (hwf : g.wf) {x y : Nat}
    (hx : x < g.width) (hy : y < g.height) : g.index x y < g.cells.length := by
  have h1 : y * g.width + x < (y + 1) * g.width := by
    simpa [Nat.succ_mul] using Nat.add_lt_add_left hx (y * g.width)
  have h2 : (y + 1) * g.width ≤ g.height * g.width := Nat.mul_le_mul_right _ hy
  have hlt : y * g.width + x < g.width * g.height := by
    calc y * g.width + x < (y + 1) * g.width := h1
    _ ≤ g.height * g.width := h2
    _ = g.width * g.height := Nat.mul_comm _ _
  have hcl : g.cells.length = g.width * g.height := hwf
  show y * g.width + x < g.cells.length
  rw [hcl]
  exact hlt

theorem Grid.get_eq_of_inbounds {g : Grid} {x y : Nat}
    (hx : x < g.width) (hy : y < g.height) :
    g.get x y = g.cells.getD (g.index x y) none := by
  simp [Grid.get, hx, hy]

theorem Grid.set_width (g : Grid) (x y : Nat) (v : Option Symbol) :
    (g.set x y v).width = g.width := by
  unfold Grid.set
  split <;> rfl

theorem Grid.set_height (g : Grid) (x y : Nat) (v : Option Symbol) :
    (g.set x y v).height = g.height := by
  unfold Grid.set
  split <;> rfl

theorem Grid.set_wf {g : Grid} (hwf : g.wf) (x y : Nat) (v : Option Symbol) :
    (g.set x y v).wf := by
  unfold Grid.set Grid.wf at *
  split <;> simpa

theorem Grid.get_set_self {g : Grid} (hwf : g.wf) {x y : Nat}
    (hx : x < g.width) (hy : y < g.height) (v : Option Symbol) :
    (g.set x y v).get x y = v := by
  have hidx := Grid.index_lt hwf hx hy
  simp only [Grid.set, Grid.get, Grid.index, hx, hy, and_self, if_true]
  simp only [List.getD_eq_getElem?_getD]
  rw [List.getElem?_set_self]
  · rfl
  · simpa [Grid.index] using hidx

theorem Grid.get_set_ne {g : Grid} {x y x' y' : Nat}
    (hne : ¬(x = x' ∧ y = y')) (v : Option Symbol) :
    (g.set x y v).get x' y' = g.get x' y' := by
  unfold Grid.set Grid.get Grid.index
  by_cases hin : x < g.width ∧ y < g.height
  · simp only [hin, if_true]
    by_cases hin' : x' < g.width ∧ y' < g.height
    · simp only [hin', and_self, if_true]
      have hidx : y * g.width + x ≠ y' * g.width + x' := by
        intro hcontra
        exact hne (Grid.index_inj hin.1 hin'.1 hcontra)
      simp only [List.getD_eq_getElem?_getD]
      rw [List.getElem?_set_ne hidx]
    · simp [hin']
  · simp [hin]

theorem Grid.take_eq (g : Grid) (x y : Nat) :
    g.take x y = (g.get x y, g.set x y none) := by
  unfold Grid.take Grid.get Grid.set
  split <;> rfl

theorem Grid.rotate_all_get (g : Grid) (x y : Nat) :
    (g.rotate_all).get x y = (g.get x y).map Symbol.rotate := by
  unfold Grid.rotate_all Grid.get Grid.index
  by_cases hin : x < g.width ∧ y < g.height
  · simp only [hin, and_self, if_true]
    simp only [List.getD_eq_getElem?_getD, List.getElem?_map]
    cases g.cells[y * g.width + x]? with
    | none => rfl
    | some c => cases c <;> rfl
  · simp [hin]

theorem Symbol.rotate_faces (s : Symbol) : s.rotate.faces = s.faces := rfl

/-! ### Theorems for the symbol/rotation claims -/

theorem Symbol.current_type_congr {s s' : Symbol} (hf : s.faces = s'.faces)
    (hr : s.rotation_state = s'.rotation_state) :
    s.current_type = s'.current_type := by
  unfold Symbol.current_type
  rw [hf, hr]

theorem Symbol.iterate_rotate_congr (n : Nat) {s s' : Symbol}
    (hf : s.faces = s'.faces) (hr : s.rotation_state = s'.rotation_state) :
    (Symbol.rotate^[n] s).faces = (Symbol.rotate^[n] s').faces ∧
      (Symbol.rotate^[n] s).rotation_state = (Symbol.rotate^[n] s').rotation_state := by
  induction n generalizing s s' with
  | zero => exact ⟨hf, hr⟩
  | succ n ih =>
    rw [Function.iterate_succ_apply, Function.iterate_succ_apply]
    exact ih (by simp [Symbol.rotate, hf]) (by simp [Symbol.rotate, hr])

/-- C5: `with_type(p, t)` has phase 0 and the face cycle
`(t, succ t, succ² t, succ³ t)`, so its current type at creation is `t`, and
two symbols seeded with the same type show equal current types after any
equal number of rotations. -/
theorem with_type_spec (p : Int × Int) (t : SymbolType) :
    (Symbol.with_type p t).rotation_state = 0 ∧
    (Symbol.with_type p t).faces = [t, t.succ, t.succ.succ, t.succ.succ.succ] ∧
    (Symbol.with_type p t).current_type = t ∧
    ∀ (n : Nat) (q : Int × Int),
      (Symbol.rotate^[n] (Symbol.with_type p t)).current_type =
        (Symbol.rotate^[n] (Symbol.with_type q t)).current_type := by
  refine ⟨rfl, ?_, ?_, ?_⟩
  · cases t <;> rfl
  · cases t <;> rfl
  · intro n q
    have h := @Symbol.iterate_rotate_congr n
      (Symbol.with_type p t) (Symbol.with_type q t)
      (by cases t <;> rfl) rfl
    exact Symbol.current_type_congr h.1 h.2

theorem Symbol.rotate_four {s : Symbol} (h : s.rotation_state < 4) :
    s.rotate.rotate.rotate.rotate.rotation_state = s.rotation_state := by
  simp only [Symbol.rotate]
  omega

theorem Grid.mem_of_get {g : Grid} {x y : Nat} {s : Symbol}
    (h : g.get x y = some s) : some s ∈ g.cells := by
  unfold Grid.get at h
  by_cases hin : x < g.width ∧ y < g.height
  · simp only [hin, and_self, if_true] at h
    rw [List.getD_eq_getElem?_getD] at h
    cases hc : g.cells[g.index x y]? with
    | none => rw [hc] at h; simp at h
    | some c =>
      rw [hc] at h
      simp only [Option.getD_some] at h
      subst h
      have hq : g.cells.get? (g.index x y) = some (some s) := by
        rw [List.get?_eq_getElem?]
        exact hc
      exact List.get?_mem hq
  · simp [hin] at h

/-- C4: `rotate_all` rotates every occupied cell in place — dimensions and
occupancy are unchanged, each stored symbol keeps its faces and position and
has its phase advanced by one mod 4 — and four consecutive `rotate_all`
calls restore every symbol's current type (given the phase invariant). -/
theorem rotate_all_spec (g : Grid) :
    (g.rotate_all.width = g.width ∧ g.rotate_all.height = g.height ∧
      ∀ x y : Nat, g.rotate_all.get x y = (g.get x y).map Symbol.rotate) ∧
    (∀ s : Symbol, s.rotate.faces = s.faces ∧ s.rotate.grid_pos = s.grid_pos ∧
      s.rotate.selected = s.selected ∧ s.rotate.marked_for_clear = s.marked_for_clear ∧
      s.rotate.rotation_state = (s.rotation_state + 1) % 4) ∧
    (g.symbolsWf = true →
      ∀ x y : Nat,
        (g.rotate_all.rotate_all.rotate_all.rotate_all.get x y).map Symbol.current_type =
          (g.get x y).map Symbol.current_type) := by
  refine ⟨⟨rfl, rfl, fun x y => Grid.rotate_all_get g x y⟩,
    fun s => ⟨rfl, rfl, rfl, rfl, rfl⟩, ?_⟩
  intro hwf x y
  rw [Grid.rotate_all_get, Grid.rotate_all_get, Grid.rotate_all_get, Grid.rotate_all_get]
  cases hget : g.get x y with
  | none => rfl
  | some s =>
    have hmem : some s ∈ g.cells := Grid.mem_of_get hget
    have hs4 : s.rotation_state < 4 := by
      unfold Grid.symbolsWf at hwf
      rw [List.all_eq_true] at hwf
      have := hwf _ hmem
      simpa using this
    have hfaces : s.rotate.rotate.rotate.rotate.faces = s.faces := rfl
    exact congrArg some (Symbol.current_type_congr hfaces (Symbol.rotate_four hs4))

/-- Closed witness for the rotation claim: a concrete 1×1 grid through four
rotations. -/
theorem rotate_all_spec_witness :
    ((Grid.new 1 1).set 0 0 (some (Symbol.with_type (0, 0) .Red))).symbolsWf = true ∧
    ((((Grid.new 1 1).set 0 0
        (some (Symbol.with_type (0, 0) .Red))).rotate_all.rotate_all.rotate_all.rotate_all.get 0 0).map
          Symbol.current_type =
      (((Grid.new 1 1).set 0 0 (some (Symbol.with_type (0, 0) .Red))).get 0 0).map
        Symbol.current_type) :=
  ⟨by decide, (rotate_all_spec _).2.2 (by decide) 0 0⟩

/-- C10: every symbol reachable through the constructors and `rotate` keeps
its phase strictly below 4 and a 4-entry face table, so the `faces[phase]`
lookup of `current_type` is in bounds. -/
theorem phase_invariant (p : Int × Int) (a b c d : Nat) (t : SymbolType) (s : Symbol) :
    ((Symbol.new p a b c d).rotation_state = 0 ∧ (Symbol.new p a b c d).faces.length = 4) ∧
    ((Symbol.with_type p t).rotation_state = 0 ∧ (Symbol.with_type p t).faces.length = 4) ∧
    (s.rotate.faces = s.faces) ∧
    (s.rotation_state < 4 → s.rotate.rotation_state < 4) ∧
    (s.rotation_state < 4 → s.faces.length = 4 →
      s.faces.get? s.rotation_state = some s.current_type) := by
  refine ⟨⟨rfl, rfl⟩, ⟨rfl, by cases t <;> rfl⟩, rfl, ?_, ?_⟩
  · intro _
    exact Nat.mod_lt _ (by omega)
  · intro hlt hlen
    have hbound : s.rotation_state < s.faces.length := by omega
    rw [List.get?_eq_getElem? , List.getElem?_eq_getElem hbound]
    unfold Symbol.current_type
    rw [List.getD_eq_getElem?_getD, List.getElem?_eq_getElem hbound]
    rfl

/-- Closed witness for the phase-invariant claim at a concrete symbol. -/
theorem phase_invariant_witness :
    (Symbol.with_type (0, 0) SymbolType.Blue).faces.get?
        (Symbol.with_type (0, 0) SymbolType.Blue).rotation_state =
      some (Symbol.with_type (0, 0) SymbolType.Blue).current_type :=
  (phase_invariant (0, 0) 0 0 0 0 SymbolType.Blue
    (Symbol.with_type (0, 0) SymbolType.Blue)).2.2.2.2 (by decide) (by decide)

/-- C8: `get`/`set`/`take` are bounds-checked: out of range they return
`none` / leave the grid unchanged, and in range (on a well-formed grid) the
internal index is within the cell vector, so the indexing cannot fail. -/
theorem grid_access_safety (g : Grid) (x y : Nat) (v : Option Symbol) :
    (¬(x < g.width ∧ y < g.height) →
      g.get x y = none ∧ g.set x y v = g ∧ g.take x y = (none, g)) ∧
    (g.wf → x < g.width → y < g.height →
      g.index x y < g.cells.length ∧
      g.cells.get? (g.index x y) = some (g.get x y) ∧
      (g.set x y v).cells.length = g.cells.length) := by
  constructor
  · intro hout
    refine ⟨?_, ?_, ?_⟩
    · simp [Grid.get, hout]
    · simp [Grid.set, hout]
    · unfold Grid.take
      rw [if_neg hout]
  · intro hwf hx hy
    have hidx := Grid.index_lt hwf hx hy
    refine ⟨hidx, ?_, ?_⟩
    · rw [List.get?_eq_getElem?, List.getElem?_eq_getElem hidx]
      rw [Grid.get_eq_of_inbounds hx hy, List.getD_eq_getElem?_getD,
        List.getElem?_eq_getElem hidx]
      rfl
    · simp [Grid.set, hx, hy]

/-- Closed witness for the bounds-checking claim on a concrete 2×2 grid. -/
theorem grid_access_safety_witness :
    ((Grid.new 2 2).get 5 0 = none ∧ (Grid.new 2 2).set 5 0 none = Grid.new 2 2 ∧
      (Grid.new 2 2).take 5 0 = (none, Grid.new 2 2)) ∧
    ((Grid.new 2 2).index 1 1 < (Grid.new 2 2).cells.length ∧
      (Grid.new 2 2).cells.get? ((Grid.new 2 2).index 1 1) =
        some ((Grid.new 2 2).get 1 1) ∧
      ((Grid.new 2 2).set 1 1 none).cells.length = (Grid.new 2 2).cells.length) :=
  ⟨(grid_access_safety (Grid.new 2 2) 5 0 none).1 (by decide),
    (grid_access_safety (Grid.new 2 2) 1 1 none).2 (by decide) (by decide) (by decide)⟩

/-! ### Match detection (`matching.rs`) -/

/-- Embeds `matching.rs::Match`. -/
structure Match where
  positions : List (Int × Int)
  horizontal : Bool
deriving DecidableEq, Repr

/-- Embeds `Match::len`. -/
def Match.len (m : Match) : Nat :=
  m.positions.length

/-- Embeds `Match::score` (`match self.len() { 3 => 50, 4 => 100, 5 => 200, _ => 400 }`). -/
def Match.score (m : Match) : Int :=
  match m.len with
  | 3 => 50
  | 4 => 100
  | 5 => 200
  | _ => 400

/-- The inner `while` loops of `find_horizontal`/`find_vertical`, factored
over the scanned line: `f` reads the line, `limit` is its extent.  Starting
from `len` cells already counted at `start`, counts how many consecutive
occupied cells share current type `t`.  `fuel` bounds the loop (the source
loop runs at most `limit` times; every call passes `fuel = limit`). -/
def MatchFinder.runLenAux (f : Nat → Option Symbol) (limit : Nat) (t : SymbolType)
    (start : Nat) : Nat → Nat → Nat
  | len, 0 => len
  | len, fuel+1 =>
    if start + len < limit then
      match f (start + len) with
      | some s =>
        if s.current_type = t then MatchFinder.runLenAux f limit t start (len + 1) fuel
        else len
      | none => len
    else len

/-- The outer scanning loop of `find_horizontal`/`find_vertical`, factored
over the scanned line: emits the `(start, length)` of every run of length
≥ 3 and advances past each run.  `fuel` bounds the loop (`fuel = limit`
suffices since the cursor strictly increases). -/
def MatchFinder.scanLine (f : Nat → Option Symbol) (limit : Nat) : Nat → Nat → List (Nat × Nat)
  | _, 0 => []
  | x, fuel+1 =>
    if x < limit then
      match f x with
      | some s =>
        let len := MatchFinder.runLenAux f limit s.current_type x 1 limit
        let rest := MatchFinder.scanLine f limit (x + len) fuel
        if 3 ≤ len then (x, len) :: rest else rest
      | none => MatchFinder.scanLine f limit (x + 1) fuel
    else []

/-- Embeds `MatchFinder::find_horizontal`: scan every row left to right. -/
def MatchFinder.find_horizontal (g : Grid) : List Match :=
  ((List.range g.height).map (fun y =>
    (MatchFinder.scanLine (fun x => g.get x y) g.width 0 g.width).map (fun r =>
      { positions := (List.range r.2).map (fun i => (((r.1 + i : Nat) : Int), (y : Int)))
        horizontal := true }))).flatten

/-- Embeds `MatchFinder::find_vertical`: scan every column top to bottom. -/
def MatchFinder.find_vertical (g : Grid) : List Match :=
  ((List.range g.width).map (fun x =>
    (MatchFinder.scanLine (fun y => g.get x y) g.height 0 g.height).map (fun r =>
      { positions := (List.range r.2).map (fun i => ((x : Int), ((r.1 + i : Nat) : Int)))
        horizontal := false }))).flatten

/-- Embeds `MatchFinder::find_all`. -/
def MatchFinder.find_all (g : Grid) : List Match :=
  MatchFinder.find_horizontal g ++ MatchFinder.find_vertical g

/-- Embeds `MatchFinder::get_matched_positions` (first-appearance dedup). -/
def MatchFinder.get_matched_positions (ms : List Match) : List (Int × Int) :=
  ms.foldl
    (fun acc m =>
      m.positions.foldl (fun acc2 p => if p ∈ acc2 then acc2 else acc2 ++ [p]) acc)
    []

/-- Two's-complement cast of an `i32` coordinate to a 64-bit `usize`
(`pos.x as usize` in the source). -/
def intToUsize (i : Int) : Nat :=
  (i % (2 ^ 64 : Int)).toNat

/-- Embeds `MatchFinder::would_create_match`.  The source clones the grid
and mutates only the clone; here the caller's grid is threaded through and
returned, so that non-mutation is a provable statement. -/
def MatchFinder.would_create_match (g : Grid) (pos1 pos2 : Int × Int) : Bool × Grid :=
  match g.take (intToUsize pos1.1) (intToUsize pos1.2) with
  | (symbol1, tg1) =>
    match tg1.take (intToUsize pos2.1) (intToUsize pos2.2) with
    | (symbol2, tg2) =>
      match symbol1, symbol2 with
      | some s1, some s2 =>
        (!(MatchFinder.find_all
            ((tg2.set (intToUsize pos2.1) (intToUsize pos2.2)
                (some { s1 with grid_pos := pos2 })).set
              (intToUsize pos1.1) (intToUsize pos1.2)
              (some { s2 with grid_pos := pos1 }))).isEmpty,
          g)
      | _, _ => (false, g)

/-- Spec-side description of the swapped copy inside `would_create_match`:
a copy of the grid with the two symbols exchanged and their stored position
fields updated.  Stated from the spec's words, to compare the
implementation against the claim. -/
def MatchFinder.swappedCopy (g : Grid) (pos1 pos2 : Int × Int) : Grid :=
  match g.get (intToUsize pos1.1) (intToUsize pos1.2),
      g.get (intToUsize pos2.1) (intToUsize pos2.2) with
  | some s1, some s2 =>
    (g.set (intToUsize pos2.1) (intToUsize pos2.2) (some { s1 with grid_pos := pos2 })).set
      (intToUsize pos1.1) (intToUsize pos1.2) (some { s2 with grid_pos := pos1 })
  | _, _ => g

/-! ### Lemmas about `set`, and the `would_create_match` claim -/

theorem Grid.set_set_self (g : Grid) (x y : Nat) (u v : Option Symbol) :
    (g.set x y u).set x y v = g.set x y v := by
  unfold Grid.set
  by_cases hin : x < g.width ∧ y < g.height
  · simp only [hin, and_self, if_true, Grid.index, List.set_set]
  · simp only [hin, if_false]

theorem Grid.set_comm {g : Grid} {x y x' y' : Nat}
    (hne : ¬(x = x' ∧ y = y')) (u v : Option Symbol) :
    (g.set x y u).set x' y' v = (g.set x' y' v).set x y u := by
  unfold Grid.set
  by_cases hin : x < g.width ∧ y < g.height
  · by_cases hin' : x' < g.width ∧ y' < g.height
    · have hidx : (g.index x y) ≠ (g.index x' y') := by
        intro hcontra
        exact hne (Grid.index_inj hin.1 hin'.1 hcontra)
      simp only [hin, hin', and_self, if_true, Grid.index] at *
      rw [List.set_comm _ _ _ hidx]
    · simp only [hin, hin', and_self, if_true, if_false]
  · by_cases hin' : x' < g.width ∧ y' < g.height
    · simp only [hin, hin', and_self, if_true, if_false]
    · simp only [hin, hin', if_false]

theorem Grid.get_set_none (g : Grid) (x y : Nat) :
    (g.set x y none).get x y = none := by
  unfold Grid.set Grid.get Grid.index
  by_cases hin : x < g.width ∧ y < g.height
  · simp only [hin, and_self, if_true]
    by_cases hlen : y * g.width + x < g.cells.length
    · simp only [List.getD_eq_getElem?_getD]
      rw [List.getElem?_set_self (by simpa using hlen)]
      rfl
    · simp only [List.getD_eq_getElem?_getD]
      rw [List.getElem?_eq_none (by simpa using Nat.le_of_not_lt hlen)]
      rfl
  · simp [hin]

theorem Grid.get_some_inbounds {g : Grid} {x y : Nat} {s : Symbol}
    (h : g.get x y = some s) : x < g.width ∧ y < g.height := by
  by_cases hin : x < g.width ∧ y < g.height
  · exact hin
  · rw [Grid.get, if_neg hin] at h
    cases h

/-- C3 (amended): `would_create_match` returns the caller's grid unchanged;
it returns `false` when either addressed cell is empty; and when the two
positions address distinct occupied cells it returns `true` exactly when
`find_all` of the swapped copy is non-empty. -/
theorem would_create_match_spec (g : Grid) (p1 p2 : Int × Int) :
    (MatchFinder.would_create_match g p1 p2).2 = g ∧
    ((g.get (intToUsize p1.1) (intToUsize p1.2) = none ∨
        g.get (intToUsize p2.1) (intToUsize p2.2) = none) →
      (MatchFinder.would_create_match g p1 p2).1 = false) ∧
    ((intToUsize p1.1, intToUsize p1.2) ≠ (intToUsize p2.1, intToUsize p2.2) →
      ∀ s1 s2, g.get (intToUsize p1.1) (intToUsize p1.2) = some s1 →
        g.get (intToUsize p2.1) (intToUsize p2.2) = some s2 →
        ((MatchFinder.would_create_match g p1 p2).1 = true ↔
          MatchFinder.find_all (MatchFinder.swappedCopy g p1 p2) ≠ [])) := by
  refine ⟨?_, ?_, ?_⟩
  · simp only [MatchFinder.would_create_match, Grid.take_eq]
    cases g.get (intToUsize p1.1) (intToUsize p1.2) with
    | none =>
      cases (g.set (intToUsize p1.1) (intToUsize p1.2) none).get (intToUsize p2.1)
        (intToUsize p2.2) <;> rfl
    | some s1 =>
      cases (g.set (intToUsize p1.1) (intToUsize p1.2) none).get (intToUsize p2.1)
        (intToUsize p2.2) <;> rfl
  · intro hempty
    simp only [MatchFinder.would_create_match, Grid.take_eq]
    cases hg1 : g.get (intToUsize p1.1) (intToUsize p1.2) with
    | none =>
      cases (g.set (intToUsize p1.1) (intToUsize p1.2) none).get (intToUsize p2.1)
        (intToUsize p2.2) <;> rfl
    | some s1 =>
      have hg2 : g.get (intToUsize p2.1) (intToUsize p2.2) = none := by
        rcases hempty with h | h
        · rw [hg1] at h; cases h
        · exact h
      by_cases hsame : (intToUsize p1.1, intToUsize p1.2) = (intToUsize p2.1, intToUsize p2.2)
      · have hx : intToUsize p1.1 = intToUsize p2.1 := congrArg Prod.fst hsame
        have hy : intToUsize p1.2 = intToUsize p2.2 := congrArg Prod.snd hsame
        rw [← hx, ← hy, Grid.get_set_none]
      · have hne : ¬(intToUsize p1.1 = intToUsize p2.1 ∧ intToUsize p1.2 = intToUsize p2.2) := by
          intro ⟨hx, hy⟩
          exact hsame (by rw [hx, hy])
        have hg2' : (g.set (intToUsize p1.1) (intToUsize p1.2) none).get (intToUsize p2.1)
            (intToUsize p2.2) = none := by
          rw [Grid.get_set_ne hne, hg2]
        rw [hg2']
  · intro hne s1 s2 hg1 hg2
    have hnexy : ¬(intToUsize p1.1 = intToUsize p2.1 ∧ intToUsize p1.2 = intToUsize p2.2) := by
      intro ⟨hx, hy⟩
      exact hne (by rw [hx, hy])
    have hget2 : (g.set (intToUsize p1.1) (intToUsize p1.2) none).get (intToUsize p2.1)
        (intToUsize p2.2) = some s2 := by
      rw [Grid.get_set_ne hnexy, hg2]
    have hgrid :
        (((g.set (intToUsize p1.1) (intToUsize p1.2) none).set (intToUsize p2.1)
              (intToUsize p2.2) none).set (intToUsize p2.1) (intToUsize p2.2)
            (some { s1 with grid_pos := p2 })).set (intToUsize p1.1) (intToUsize p1.2)
          (some { s2 with grid_pos := p1 }) =
        MatchFinder.swappedCopy g p1 p2 := by
      unfold MatchFinder.swappedCopy
      rw [hg1, hg2]
      rw [Grid.set_set_self]
      rw [Grid.set_comm hnexy none (some { s1 with grid_pos := p2 })]
      rw [Grid.set_set_self]
    simp only [MatchFinder.would_create_match, Grid.take_eq]
    rw [hg1, hget2]
    show (!(MatchFinder.find_all _).isEmpty) = true ↔ _
    rw [hgrid]
    cases h : MatchFinder.find_all (MatchFinder.swappedCopy g p1 p2) <;> simp

/-- The 1×3 strip `[Red, Red, Blue]` of the spec's scoring scenario. -/
def rowRRB : Grid :=
  (((Grid.new 3 1).set 0 0 (some (Symbol.with_type (0, 0) .Red))).set 1 0
      (some (Symbol.with_type (1, 0) .Red))).set 2 0
    (some (Symbol.with_type (2, 0) .Blue))

/-- The scenario grid: cell 2 of the strip set to `Red`. -/
def rowScenario : Grid :=
  rowRRB.set 2 0 (some (Symbol.with_type (2, 0) .Red))

/-- Closed witness for the (amended) `would_create_match` claim at a
concrete pair of distinct occupied cells. -/
theorem would_create_match_spec_witness :
    (MatchFinder.would_create_match rowRRB (0, 0) (1, 0)).2 = rowRRB ∧
    ((MatchFinder.would_create_match rowRRB (0, 0) (1, 0)).1 = true ↔
      MatchFinder.find_all (MatchFinder.swappedCopy rowRRB (0, 0) (1, 0)) ≠ []) :=
  ⟨(would_create_match_spec rowRRB (0, 0) (1, 0)).1,
    (would_create_match_spec rowRRB (0, 0) (1, 0)).2.2 (by decide)
      (Symbol.with_type (0, 0) .Red) (Symbol.with_type (1, 0) .Red)
      (by decide) (by decide)⟩

/-- C3 counterexample: with `posA = posB` pointing at an occupied cell of a
grid that already holds a match, neither cell is empty and `find_all` of
the swapped copy is non-empty, yet `would_create_match` returns `false`
(the second `take` finds the cell already vacated). -/
theorem would_create_match_counterexample :
    (rowScenario.get 0 0).isSome = true ∧
    MatchFinder.find_all (MatchFinder.swappedCopy rowScenario (0, 0) (0, 0)) ≠ [] ∧
    (MatchFinder.would_create_match rowScenario (0, 0) (0, 0)).1 = false := by
  refine ⟨by decide, by decide, by decide⟩

/-! ### Score tiers (C6) -/

theorem MatchFinder.scanLine_len {f : Nat → Option Symbol} {limit : Nat} :
    ∀ (fuel x : Nat) (p : Nat × Nat), p ∈ MatchFinder.scanLine f limit x fuel → 3 ≤ p.2 := by
  intro fuel
  induction fuel with
  | zero =>
    intro x p hp
    simp [MatchFinder.scanLine] at hp
  | succ fuel ih =>
    intro x p hp
    rw [MatchFinder.scanLine] at hp
    by_cases hx : x < limit
    · rw [if_pos hx] at hp
      cases hfx : f x with
      | none =>
        rw [hfx] at hp
        exact ih _ p hp
      | some s =>
        rw [hfx] at hp
        dsimp only at hp
        by_cases h3 : 3 ≤ MatchFinder.runLenAux f limit s.current_type x 1 limit
        · rw [if_pos h3] at hp
          rcases List.mem_cons.mp hp with hp | hp
          · rw [hp]
            exact h3
          · exact ih _ p hp
        · rw [if_neg h3] at hp
          exact ih _ p hp
    · rw [if_neg hx] at hp
      simp at hp

theorem MatchFinder.mem_find_horizontal {g : Grid} {m : Match} :
    m ∈ MatchFinder.find_horizontal g ↔
      ∃ y, y ∈ List.range g.height ∧
        ∃ r, r ∈ MatchFinder.scanLine (fun x => g.get x y) g.width 0 g.width ∧
          m = { positions := (List.range r.2).map (fun i => (((r.1 + i : Nat) : Int), (y : Int)))
                horizontal := true } := by
  unfold MatchFinder.find_horizontal
  rw [List.mem_flatten]
  constructor
  · rintro ⟨l, hl, hml⟩
    obtain ⟨y, hy, rfl⟩ := List.mem_map.mp hl
    obtain ⟨r, hr, rfl⟩ := List.mem_map.mp hml
    exact ⟨y, hy, r, hr, rfl⟩
  · rintro ⟨y, hy, r, hr, rfl⟩
    refine ⟨_, List.mem_map.mpr ⟨y, hy, rfl⟩, List.mem_map.mpr ⟨r, hr, rfl⟩⟩

theorem MatchFinder.mem_find_vertical {g : Grid} {m : Match} :
    m ∈ MatchFinder.find_vertical g ↔
      ∃ x, x ∈ List.range g.width ∧
        ∃ r, r ∈ MatchFinder.scanLine (fun y => g.get x y) g.height 0 g.height ∧
          m = { positions := (List.range r.2).map (fun i => ((x : Int), ((r.1 + i : Nat) : Int)))
                horizontal := false } := by
  unfold MatchFinder.find_vertical
  rw [List.mem_flatten]
  constructor
  · rintro ⟨l, hl, hml⟩
    obtain ⟨x, hx, rfl⟩ := List.mem_map.mp hl
    obtain ⟨r, hr, rfl⟩ := List.mem_map.mp hml
    exact ⟨x, hx, r, hr, rfl⟩
  · rintro ⟨x, hx, r, hr, rfl⟩
    refine ⟨_, List.mem_map.mpr ⟨x, hx, rfl⟩, List.mem_map.mpr ⟨r, hr, rfl⟩⟩

theorem MatchFinder.len_of_mem_find_all {g : Grid} {m : Match}
    (hm : m ∈ MatchFinder.find_all g) : 3 ≤ m.len := by
  unfold MatchFinder.find_all at hm
  rcases List.mem_append.mp hm with h | h
  · obtain ⟨y, _, r, hr, rfl⟩ := MatchFinder.mem_find_horizontal.mp h
    have := MatchFinder.scanLine_len _ _ r hr
    simpa [Match.len] using this
  · obtain ⟨x, _, r, hr, rfl⟩ := MatchFinder.mem_find_vertical.mp h
    have := MatchFinder.scanLine_len _ _ r hr
    simpa [Match.len] using this

theorem Match.score_tiers (m : Match) :
    (m.len = 3 → m.score = 50) ∧ (m.len = 4 → m.score = 100) ∧
    (m.len = 5 → m.score = 200) ∧ (6 ≤ m.len → m.score = 400) := by
  unfold Match.score
  rcases hn : m.len with _ | _ | _ | _ | _ | _ | k
  all_goals refine ⟨?_, ?_, ?_, ?_⟩ <;> intro h <;> first | rfl | omega

/-- C6: every match emitted by `find_all` has length ≥ 3 and is scored by
the flat tiers 3→50, 4→100, 5→200, ≥6→400; the `[Red, Red, Blue]` strip
with cell 2 set to `Red` yields exactly one horizontal match, of length 3
and score 50. -/
theorem match_score_spec :
    (∀ (g : Grid) (m : Match), m ∈ MatchFinder.find_all g →
      3 ≤ m.len ∧ (m.len = 3 → m.score = 50) ∧ (m.len = 4 → m.score = 100) ∧
        (m.len = 5 → m.score = 200) ∧ (6 ≤ m.len → m.score = 400)) ∧
    (MatchFinder.find_all rowScenario =
        [{ positions := [(0, 0), (1, 0), (2, 0)], horizontal := true }] ∧
      ({ positions := [(0, 0), (1, 0), (2, 0)], horizontal := true } : Match).len = 3 ∧
      ({ positions := [(0, 0), (1, 0), (2, 0)], horizontal := true } : Match).score = 50) := by
  refine ⟨?_, by decide, by decide, by decide⟩
  intro g m hm
  exact ⟨MatchFinder.len_of_mem_find_all hm, Match.score_tiers m⟩

/-- Closed witness for the scoring claim, at the scenario grid's match. -/
theorem match_score_spec_witness :
    3 ≤ ({ positions := [(0, 0), (1, 0), (2, 0)], horizontal := true } : Match).len ∧
    (({ positions := [(0, 0), (1, 0), (2, 0)], horizontal := true } : Match).len = 3 →
      ({ positions := [(0, 0), (1, 0), (2, 0)], horizontal := true } : Match).score = 50) ∧
    (({ positions := [(0, 0), (1, 0), (2, 0)], horizontal := true } : Match).len = 4 →
      ({ positions := [(0, 0), (1, 0), (2, 0)], horizontal := true } : Match).score = 100) ∧
    (({ positions := [(0, 0), (1, 0), (2, 0)], horizontal := true } : Match).len = 5 →
      ({ positions := [(0, 0), (1, 0), (2, 0)], horizontal := true } : Match).score = 200) ∧
    (6 ≤ ({ positions := [(0, 0), (1, 0), (2, 0)], horizontal := true } : Match).len →
      ({ positions := [(0, 0), (1, 0), (2, 0)], horizontal := true } : Match).score = 400) :=
  match_score_spec.1 rowScenario
    { positions := [(0, 0), (1, 0), (2, 0)], horizontal := true } (by decide)

/-! ### Characterization of the scanners (C1) -/

/-- A run of `len` consecutive occupied cells of current type `t` starting
at `start` on the line read by `f`. -/
def lineRun (f : Nat → Option Symbol) (t : SymbolType) (start len : Nat) : Prop :=
  ∀ i, i < len → ∃ s, f (start + i) = some s ∧ s.current_type = t

/-- Position `j` cannot extend a run of type `t`: it is past the scanned
extent, empty, or of a different current type. -/
def lineBreakAt (f : Nat → Option Symbol) (limit : Nat) (t : SymbolType) (j : Nat) : Prop :=
  limit ≤ j ∨ f j = none ∨ ∀ s, f j = some s → s.current_type ≠ t

/-- A maximal run: non-empty, inside the scanned extent, and unextendable
on either side. -/
def lineMaxRun (f : Nat → Option Symbol) (limit : Nat) (start len : Nat) (t : SymbolType) : Prop :=
  0 < len ∧ start + len ≤ limit ∧ lineRun f t start len ∧
    (start = 0 ∨ f (start - 1) = none ∨
      ∀ s, f (start - 1) = some s → s.current_type ≠ t) ∧
    lineBreakAt f limit t (start + len)

theorem MatchFinder.runLenAux_le {f : Nat → Option Symbol} {limit : Nat} {t : SymbolType}
    {start : Nat} :
    ∀ (fuel len : Nat), len ≤ MatchFinder.runLenAux f limit t start len fuel := by
  intro fuel
  induction fuel with
  | zero => intro len; exact Nat.le_refl _
  | succ fuel ih =>
    intro len
    rw [MatchFinder.runLenAux]
    by_cases hb : start + len < limit
    · rw [if_pos hb]
      cases hf : f (start + len) with
      | none => exact Nat.le_refl _
      | some s =>
        dsimp only
        by_cases ht : s.current_type = t
        · rw [if_pos ht]
          exact Nat.le_trans (Nat.le_succ len) (ih (len + 1))
        · rw [if_neg ht]
    · rw [if_neg hb]

theorem MatchFinder.runLenAux_run {f : Nat → Option Symbol} {limit : Nat} {t : SymbolType}
    {start : Nat} :
    ∀ (fuel len i : Nat), len ≤ i →
      i < MatchFinder.runLenAux f limit t start len fuel →
      start + i < limit ∧ ∃ s, f (start + i) = some s ∧ s.current_type = t := by
  intro fuel
  induction fuel with
  | zero =>
    intro len i hle hlt
    rw [MatchFinder.runLenAux] at hlt
    exact absurd hlt (Nat.not_lt.mpr hle)
  | succ fuel ih =>
    intro len i hle hlt
    rw [MatchFinder.runLenAux] at hlt
    by_cases hb : start + len < limit
    · rw [if_pos hb] at hlt
      cases hf : f (start + len) with
      | none =>
        rw [hf] at hlt
        exact absurd hlt (Nat.not_lt.mpr hle)
      | some s =>
        rw [hf] at hlt
        dsimp only at hlt
        by_cases ht : s.current_type = t
        · rw [if_pos ht] at hlt
          rcases Nat.eq_or_lt_of_le hle with heq | hgt
          · subst heq
            exact ⟨hb, s, hf, ht⟩
          · exact ih (len + 1) i hgt hlt
        · rw [if_neg ht] at hlt
          exact absurd hlt (Nat.not_lt.mpr hle)
    · rw [if_neg hb] at hlt
      exact absurd hlt (Nat.not_lt.mpr hle)

theorem MatchFinder.runLenAux_break {f : Nat → Option Symbol} {limit : Nat} {t : SymbolType}
    {start : Nat} :
    ∀ (fuel len : Nat), limit - (start + len) ≤ fuel →
      lineBreakAt f limit t (start + MatchFinder.runLenAux f limit t start len fuel) := by
  intro fuel
  induction fuel with
  | zero =>
    intro len hfuel
    rw [MatchFinder.runLenAux]
    exact Or.inl (by omega)
  | succ fuel ih =>
    intro len hfuel
    rw [MatchFinder.runLenAux]
    by_cases hb : start + len < limit
    · rw [if_pos hb]
      cases hf : f (start + len) with
      | none => exact Or.inr (Or.inl hf)
      | some s =>
        dsimp only
        by_cases ht : s.current_type = t
        · rw [if_pos ht]
          exact ih (len + 1) (by omega)
        · rw [if_neg ht]
          refine Or.inr (Or.inr ?_)
          intro s' hs'
          rw [hf] at hs'
          have hss : s = s' := Option.some.inj hs'
          rw [← hss]
          exact ht
    · rw [if_neg hb]
      exact Or.inl (by omega)

theorem MatchFinder.scanLine_stop {f : Nat → Option Symbol} {limit x : Nat}
    (hx : ¬x < limit) : ∀ fuel, MatchFinder.scanLine f limit x fuel = [] := by
  intro fuel
  cases fuel with
  | zero => rfl
  | succ fuel => rw [MatchFinder.scanLine, if_neg hx]

theorem MatchFinder.scanLine_start {f : Nat → Option Symbol} {limit : Nat} :
    ∀ (fuel x : Nat) (p : Nat × Nat), p ∈ MatchFinder.scanLine f limit x fuel → x ≤ p.1 := by
  intro fuel
  induction fuel with
  | zero =>
    intro x p hp
    simp [MatchFinder.scanLine] at hp
  | succ fuel ih =>
    intro x p hp
    rw [MatchFinder.scanLine] at hp
    by_cases hx : x < limit
    · rw [if_pos hx] at hp
      cases hfx : f x with
      | none =>
        rw [hfx] at hp
        exact Nat.le_trans (Nat.le_succ x) (ih (x + 1) p hp)
      | some s =>
        rw [hfx] at hp
        dsimp only at hp
        have h1 : 1 ≤ MatchFinder.runLenAux f limit s.current_type x 1 limit :=
          MatchFinder.runLenAux_le limit 1
        by_cases h3 : 3 ≤ MatchFinder.runLenAux f limit s.current_type x 1 limit
        · rw [if_pos h3] at hp
          rcases List.mem_cons.mp hp with hp | hp
          · subst hp
            exact Nat.le_refl x
          · have := ih _ p hp
            omega
        · rw [if_neg h3] at hp
          have := ih _ p hp
          omega
    · rw [if_neg hx] at hp
      simp at hp

theorem lineMaxRun_lt_of_lt {f : Nat → Option Symbol} {limit : Nat} {x la lb : Nat}
    {ta tb : SymbolType} (ha : lineMaxRun f limit x la ta) (hb : lineMaxRun f limit x lb tb)
    (htab : ta = tb) (hab : la < lb) : False := by
  obtain ⟨hposa, hlea, hruna, _, hbra⟩ := ha
  obtain ⟨hposb, hleb, hrunb, _, hbrb⟩ := hb
  obtain ⟨sb, hsb, htb'⟩ := hrunb la hab
  rcases hbra with hbr | hbr | hbr
  · omega
  · rw [hsb] at hbr
    cases hbr
  · exact hbr sb hsb (by rw [htab]; exact htb')

theorem lineMaxRun_unique {f : Nat → Option Symbol} {limit : Nat} {x len1 len2 : Nat}
    {t1 t2 : SymbolType} (h1 : lineMaxRun f limit x len1 t1)
    (h2 : lineMaxRun f limit x len2 t2) : len1 = len2 ∧ t1 = t2 := by
  have hteq : t1 = t2 := by
    obtain ⟨hpos1, _, hrun1, _, _⟩ := h1
    obtain ⟨hpos2, _, hrun2, _, _⟩ := h2
    obtain ⟨s1, hs1, ht1⟩ := hrun1 0 hpos1
    obtain ⟨s2, hs2, ht2⟩ := hrun2 0 hpos2
    rw [hs1] at hs2
    have hss : s1 = s2 := Option.some.inj hs2
    rw [← ht1, ← ht2, hss]
  refine ⟨?_, hteq⟩
  rcases Nat.lt_trichotomy len1 len2 with h | h | h
  · exact (lineMaxRun_lt_of_lt h1 h2 hteq h).elim
  · exact h
  · exact (lineMaxRun_lt_of_lt h2 h1 hteq.symm h).elim

theorem MatchFinder.scanLine_spec {f : Nat → Option Symbol} {limit : Nat} :
    ∀ (fuel x : Nat), limit - x ≤ fuel →
      (x = 0 ∨ f (x - 1) = none ∨
        ∀ s' s, f (x - 1) = some s' → f x = some s →
          s'.current_type ≠ s.current_type) →
      ∀ p : Nat × Nat, p ∈ MatchFinder.scanLine f limit x fuel ↔
        (x ≤ p.1 ∧ 3 ≤ p.2 ∧ ∃ t, lineMaxRun f limit p.1 p.2 t) := by
  intro fuel
  induction fuel with
  | zero =>
    intro x hfuel _ p
    rw [MatchFinder.scanLine]
    constructor
    · intro hp
      simp at hp
    · rintro ⟨hxp, h3, t, hmax⟩
      exfalso
      obtain ⟨hpos, hle, _, _, _⟩ := hmax
      omega
  | succ fuel ih =>
    intro x hfuel hleft p
    rw [MatchFinder.scanLine]
    by_cases hx : x < limit
    swap
    · rw [if_neg hx]
      constructor
      · intro hp
        simp at hp
      · rintro ⟨hxp, h3, t, hmax⟩
        exfalso
        obtain ⟨hpos, hle, _, _, _⟩ := hmax
        omega
    · rw [if_pos hx]
      cases hfx : f x with
      | none =>
        dsimp only
        have hiff := ih (x + 1) (by omega) (Or.inr (Or.inl (by simpa using hfx))) p
        rw [hiff]
        constructor
        · rintro ⟨hxp, h3, ht⟩
          exact ⟨by omega, h3, ht⟩
        · rintro ⟨hxp, h3, t, hmax⟩
          refine ⟨?_, h3, t, hmax⟩
          rcases Nat.eq_or_lt_of_le hxp with heq | hlt
          · exfalso
            obtain ⟨hpos, _, hrun, _, _⟩ := hmax
            obtain ⟨s, hs, _⟩ := hrun 0 hpos
            rw [Nat.add_zero] at hs
            rw [← heq] at hs
            rw [hfx] at hs
            cases hs
          · omega
      | some s =>
        dsimp only
        have hr1 : 1 ≤ MatchFinder.runLenAux f limit s.current_type x 1 limit :=
          MatchFinder.runLenAux_le limit 1
        have hrun : lineRun f s.current_type x
            (MatchFinder.runLenAux f limit s.current_type x 1 limit) := by
          intro i hi
          cases Nat.eq_zero_or_pos i with
          | inl h0 =>
            subst h0
            exact ⟨s, by rw [Nat.add_zero]; exact hfx, rfl⟩
          | inr hipos =>
            obtain ⟨_, s', hs', ht'⟩ := MatchFinder.runLenAux_run limit 1 i hipos hi
            exact ⟨s', hs', ht'⟩
        have hbreak : lineBreakAt f limit s.current_type
            (x + MatchFinder.runLenAux f limit s.current_type x 1 limit) :=
          MatchFinder.runLenAux_break limit 1 (by omega)
        have hxr : x + MatchFinder.runLenAux f limit s.current_type x 1 limit ≤ limit := by
          rcases Nat.eq_or_lt_of_le hr1 with h1 | h1
          · omega
          · obtain ⟨hlt, _⟩ := @MatchFinder.runLenAux_run f limit s.current_type x limit 1
              (MatchFinder.runLenAux f limit s.current_type x 1 limit - 1)
              (by omega) (by omega)
            omega
        have hmax : lineMaxRun f limit x
            (MatchFinder.runLenAux f limit s.current_type x 1 limit) s.current_type := by
          refine ⟨by omega, hxr, hrun, ?_, hbreak⟩
          rcases hleft with h | h | h
          · exact Or.inl h
          · exact Or.inr (Or.inl h)
          · exact Or.inr (Or.inr (fun s' hs' => h s' s hs' hfx))
        have hrest : ∀ q : Nat × Nat,
            q ∈ MatchFinder.scanLine f limit
              (x + MatchFinder.runLenAux f limit s.current_type x 1 limit) fuel ↔
              (x + MatchFinder.runLenAux f limit s.current_type x 1 limit ≤ q.1 ∧
                3 ≤ q.2 ∧ ∃ t, lineMaxRun f limit q.1 q.2 t) := by
          by_cases hxr' : x + MatchFinder.runLenAux f limit s.current_type x 1 limit < limit
          · refine ih _ (by omega) ?_
            refine Or.inr (Or.inr ?_)
            intro s' s'' hs' hs''
            obtain ⟨s₁, hs₁, ht₁⟩ := hrun
              (MatchFinder.runLenAux f limit s.current_type x 1 limit - 1) (by omega)
            rw [show x + (MatchFinder.runLenAux f limit s.current_type x 1 limit - 1) =
              x + MatchFinder.runLenAux f limit s.current_type x 1 limit - 1 by omega] at hs₁
            rw [hs₁] at hs'
            have hseq : s₁ = s' := Option.some.inj hs'
            rcases hbreak with hbr | hbr | hbr
            · omega
            · rw [hs''] at hbr
              cases hbr
            · have hne := hbr s'' hs''
              rw [← hseq, ht₁]
              intro hcontra
              exact hne hcontra.symm
          · intro q
            rw [MatchFinder.scanLine_stop hxr']
            constructor
            · intro hq
              simp at hq
            · rintro ⟨hxq, h3, t, hmaxq⟩
              exfalso
              obtain ⟨hpos, hle, _, _, _⟩ := hmaxq
              omega
        have hadv : ∀ (t : SymbolType), x < p.1 → lineMaxRun f limit p.1 p.2 t →
            x + MatchFinder.runLenAux f limit s.current_type x 1 limit ≤ p.1 := by
          intro t hlt hmaxp
          by_contra hcon
          push_neg at hcon
          obtain ⟨hposp, hlep, hrunp, hlbp, _⟩ := hmaxp
          obtain ⟨s₂, hs₂, ht₂⟩ := hrunp 0 hposp
          rw [Nat.add_zero] at hs₂
          obtain ⟨s₄, hs₄, ht₄⟩ := hrun (p.1 - x) (by omega)
          rw [show x + (p.1 - x) = p.1 by omega] at hs₄
          rw [hs₂] at hs₄
          have hseq24 : s₂ = s₄ := Option.some.inj hs₄
          have htt : t = s.current_type := by
            rw [← ht₂, hseq24, ht₄]
          obtain ⟨s₅, hs₅, ht₅⟩ := hrun (p.1 - 1 - x) (by omega)
          rw [show x + (p.1 - 1 - x) = p.1 - 1 by omega] at hs₅
          rcases hlbp with h0 | hn | hd
          · omega
          · rw [hs₅] at hn
            cases hn
          · exact hd s₅ hs₅ (by rw [ht₅, htt])
        by_cases h3 : 3 ≤ MatchFinder.runLenAux f limit s.current_type x 1 limit
        · rw [if_pos h3]
          constructor
          · intro hp
            rcases List.mem_cons.mp hp with hp | hp
            · subst hp
              exact ⟨Nat.le_refl x, h3, s.current_type, hmax⟩
            · obtain ⟨hxq, hq3, ht⟩ := (hrest p).mp hp
              exact ⟨by omega, hq3, ht⟩
          · rintro ⟨hxp, hp3, t, hmaxp⟩
            rcases Nat.eq_or_lt_of_le hxp with heq | hlt
            · have hmaxp' : lineMaxRun f limit x p.2 t := by rw [heq]; exact hmaxp
              have hux := lineMaxRun_unique hmaxp' hmax
              refine List.mem_cons.mpr (Or.inl ?_)
              exact Prod.ext heq.symm hux.1
            · refine List.mem_cons.mpr (Or.inr ?_)
              exact (hrest p).mpr ⟨hadv t hlt hmaxp, hp3, t, hmaxp⟩
        · rw [if_neg h3]
          constructor
          · intro hp
            obtain ⟨hxq, hq3, ht⟩ := (hrest p).mp hp
            exact ⟨by omega, hq3, ht⟩
          · rintro ⟨hxp, hp3, t, hmaxp⟩
            rcases Nat.eq_or_lt_of_le hxp with heq | hlt
            · exfalso
              have hmaxp' : lineMaxRun f limit x p.2 t := by rw [heq]; exact hmaxp
              have hux := lineMaxRun_unique hmaxp' hmax
              omega
            · exact (hrest p).mpr ⟨hadv t hlt hmaxp, hp3, t, hmaxp⟩

theorem MatchFinder.scanLine_chain {f : Nat → Option Symbol} {limit : Nat} :
    ∀ (fuel x : Nat),
      List.Pairwise (fun p q : Nat × Nat => p.1 + p.2 ≤ q.1)
        (MatchFinder.scanLine f limit x fuel) := by
  intro fuel
  induction fuel with
  | zero =>
    intro x
    exact List.Pairwise.nil
  | succ fuel ih =>
    intro x
    rw [MatchFinder.scanLine]
    by_cases hx : x < limit
    · rw [if_pos hx]
      cases hfx : f x with
      | none => exact ih (x + 1)
      | some s =>
        dsimp only
        by_cases h3 : 3 ≤ MatchFinder.runLenAux f limit s.current_type x 1 limit
        · rw [if_pos h3]
          refine List.Pairwise.cons ?_ (ih _)
          intro q hq
          exact MatchFinder.scanLine_start fuel _ q hq
        · rw [if_neg h3]
          exact ih _
    · rw [if_neg hx]
      exact List.Pairwise.nil

/-- Maximal horizontal run of length `len` and current type `t` starting at
column `x` in row `y`. -/
def isMaxRunH (g : Grid) (y x len : Nat) (t : SymbolType) : Prop :=
  lineMaxRun (fun i => g.get i y) g.width x len t

/-- Maximal vertical run of length `len` and current type `t` starting at
row `y` in column `x`. -/
def isMaxRunV (g : Grid) (x y len : Nat) (t : SymbolType) : Prop :=
  lineMaxRun (fun j => g.get x j) g.height y len t

theorem MatchFinder.find_horizontal_disjoint (g : Grid) :
    List.Pairwise (fun m1 m2 : Match => ∀ q ∈ m1.positions, q ∉ m2.positions)
      (MatchFinder.find_horizontal g) := by
  unfold MatchFinder.find_horizontal
  rw [List.pairwise_flatten]
  constructor
  · intro l' hl'
    obtain ⟨y, hy, rfl⟩ := List.mem_map.mp hl'
    refine List.Pairwise.map _ ?_ (MatchFinder.scanLine_chain g.width 0)
    intro p q hpq c hc hc'
    obtain ⟨i, hi, rfl⟩ := List.mem_map.mp hc
    obtain ⟨j, hj, hcj⟩ := List.mem_map.mp hc'
    rw [List.mem_range] at hi hj
    have hx : ((q.1 + j : Nat) : Int) = ((p.1 + i : Nat) : Int) :=
      congrArg Prod.fst hcj
    have hx' : q.1 + j = p.1 + i := by exact_mod_cast hx
    omega
  · refine List.Pairwise.map _ ?_ (List.pairwise_lt_range g.height)
    intro y1 y2 hy12 a ha b hb c hc hc'
    obtain ⟨r1, hr1, rfl⟩ := List.mem_map.mp ha
    obtain ⟨r2, hr2, rfl⟩ := List.mem_map.mp hb
    obtain ⟨i, hi, rfl⟩ := List.mem_map.mp hc
    obtain ⟨j, hj, hcj⟩ := List.mem_map.mp hc'
    have hyy : ((y2 : Nat) : Int) = ((y1 : Nat) : Int) := congrArg Prod.snd hcj
    have hyy' : y2 = y1 := by exact_mod_cast hyy
    omega

theorem MatchFinder.find_vertical_disjoint (g : Grid) :
    List.Pairwise (fun m1 m2 : Match => ∀ q ∈ m1.positions, q ∉ m2.positions)
      (MatchFinder.find_vertical g) := by
  unfold MatchFinder.find_vertical
  rw [List.pairwise_flatten]
  constructor
  · intro l' hl'
    obtain ⟨x, hx, rfl⟩ := List.mem_map.mp hl'
    refine List.Pairwise.map _ ?_ (MatchFinder.scanLine_chain g.height 0)
    intro p q hpq c hc hc'
    obtain ⟨i, hi, rfl⟩ := List.mem_map.mp hc
    obtain ⟨j, hj, hcj⟩ := List.mem_map.mp hc'
    rw [List.mem_range] at hi hj
    have hy : ((q.1 + j : Nat) : Int) = ((p.1 + i : Nat) : Int) :=
      congrArg Prod.snd hcj
    have hy' : q.1 + j = p.1 + i := by exact_mod_cast hy
    omega
  · refine List.Pairwise.map _ ?_ (List.pairwise_lt_range g.width)
    intro x1 x2 hx12 a ha b hb c hc hc'
    obtain ⟨r1, hr1, rfl⟩ := List.mem_map.mp ha
    obtain ⟨r2, hr2, rfl⟩ := List.mem_map.mp hb
    obtain ⟨i, hi, rfl⟩ := List.mem_map.mp hc
    obtain ⟨j, hj, hcj⟩ := List.mem_map.mp hc'
    have hxx : ((x2 : Nat) : Int) = ((x1 : Nat) : Int) := congrArg Prod.fst hcj
    have hxx' : x2 = x1 := by exact_mod_cast hxx
    omega

/-- C1: `find_horizontal` (resp. `find_vertical`) emits exactly the maximal
horizontal (resp. vertical) runs of length ≥ 3 of equal current type: every
emitted match covers precisely such a run (hence length ≥ 3, all member
cells of equal current type and collinear, empty cells breaking runs), every
maximal run of length ≥ 3 yields a match, and the emitted matches of each
scanner are pairwise position-disjoint — so no two matches within a row
(resp. column) overlap, and each maximal run is emitted exactly once. -/
theorem find_matches_spec (g : Grid) (m : Match) :
    (m ∈ MatchFinder.find_horizontal g ↔
      ∃ y x len t, y < g.height ∧ 3 ≤ len ∧ isMaxRunH g y x len t ∧
        m = { positions := (List.range len).map (fun i => (((x + i : Nat) : Int), (y : Int)))
              horizontal := true }) ∧
    (m ∈ MatchFinder.find_vertical g ↔
      ∃ x y len t, x < g.width ∧ 3 ≤ len ∧ isMaxRunV g x y len t ∧
        m = { positions := (List.range len).map (fun i => ((x : Int), ((y + i : Nat) : Int)))
              horizontal := false }) ∧
    List.Pairwise (fun m1 m2 : Match => ∀ q ∈ m1.positions, q ∉ m2.positions)
      (MatchFinder.find_horizontal g) ∧
    List.Pairwise (fun m1 m2 : Match => ∀ q ∈ m1.positions, q ∉ m2.positions)
      (MatchFinder.find_vertical g) := by
  refine ⟨?_, ?_, MatchFinder.find_horizontal_disjoint g, MatchFinder.find_vertical_disjoint g⟩
  · rw [MatchFinder.mem_find_horizontal]
    constructor
    · rintro ⟨y, hy, r, hr, rfl⟩
      obtain ⟨_, h3, t, hmax⟩ :=
        (MatchFinder.scanLine_spec g.width 0 (by omega) (Or.inl rfl) r).mp hr
      exact ⟨y, r.1, r.2, t, List.mem_range.mp hy, h3, hmax, rfl⟩
    · rintro ⟨y, x, len, t, hy, h3, hmax, rfl⟩
      refine ⟨y, List.mem_range.mpr hy, (x, len), ?_, rfl⟩
      exact (MatchFinder.scanLine_spec g.width 0 (by omega) (Or.inl rfl) (x, len)).mpr
        ⟨Nat.zero_le _, h3, t, hmax⟩
  · rw [MatchFinder.mem_find_vertical]
    constructor
    · rintro ⟨x, hx, r, hr, rfl⟩
      obtain ⟨_, h3, t, hmax⟩ :=
        (MatchFinder.scanLine_spec g.height 0 (by omega) (Or.inl rfl) r).mp hr
      exact ⟨x, r.1, r.2, t, List.mem_range.mp hx, h3, hmax, rfl⟩
    · rintro ⟨x, y, len, t, hx, h3, hmax, rfl⟩
      refine ⟨x, List.mem_range.mpr hx, (y, len), ?_, rfl⟩
      exact (MatchFinder.scanLine_spec g.height 0 (by omega) (Or.inl rfl) (y, len)).mpr
        ⟨Nat.zero_le _, h3, t, hmax⟩

/-! ### Turn processing (`board.rs::process_matches`) — combo and score (C7) -/

/-- Embeds `board.rs::GameState`. -/
inductive GameState where
  | Ready
  | Selected
  | Swapping
  | Matching
  | Falling
  | Rotating
deriving DecidableEq, Repr

/-- The logical fields of `board.rs::GameBoard` that `process_matches`
reads and writes (visual nodes, timers and signals are presentation state,
out of scope). -/
structure BoardState where
  grid : Grid
  score : Int
  combo : Int
  state : GameState
  selected_pos : Option (Int × Int)
deriving Repr

/-- Grid mutation performed by `animate_clear_symbols`: every matched cell
is set to `None` in the logical grid. -/
def clearPositions (g : Grid) (ps : List (Int × Int)) : Grid :=
  ps.foldl (fun gr p => gr.set (intToUsize p.1) (intToUsize p.2) none) g

/-- Embeds the state/score/combo logic of `GameBoard::process_matches`
(one resolution cycle, up to the hand-off to the clear animation). -/
def process_matches (b : BoardState) : BoardState :=
  if (MatchFinder.find_all b.grid).isEmpty then
    { b with combo := 1, state := .Ready, selected_pos := none }
  else
    { b with
        state := .Matching
        score := b.score +
          (MatchFinder.find_all b.grid).foldl (fun acc m => acc + m.score * b.combo) 0
        combo := b.combo + 1
        grid := clearPositions b.grid
          (MatchFinder.get_matched_positions (MatchFinder.find_all b.grid)) }

theorem foldl_score_mul (c : Int) :
    ∀ (l : List Match) (acc : Int),
      l.foldl (fun a m => a + m.score * c) acc = acc + (l.map Match.score).sum * c := by
  intro l
  induction l with
  | nil => intro acc; simp
  | cons m l ih =>
    intro acc
    simp only [List.foldl_cons, List.map_cons, List.sum_cons]
    rw [ih]
    ring

/-- C7: a resolution cycle resets the combo to 1 exactly when it finds no
matches; otherwise it adds the sum of match scores times the current combo
to the score and increments the combo by one. -/
theorem process_matches_combo (b : BoardState) (hc : 1 ≤ b.combo) :
    ((process_matches b).combo = 1 ↔ MatchFinder.find_all b.grid = []) ∧
    (MatchFinder.find_all b.grid ≠ [] →
      (process_matches b).score =
        b.score + ((MatchFinder.find_all b.grid).map Match.score).sum * b.combo ∧
      (process_matches b).combo = b.combo + 1) ∧
    (MatchFinder.find_all b.grid = [] →
      (process_matches b).combo = 1 ∧ (process_matches b).state = .Ready ∧
      (process_matches b).score = b.score ∧ (process_matches b).grid = b.grid) := by
  by_cases h : MatchFinder.find_all b.grid = []
  · have hemp : (MatchFinder.find_all b.grid).isEmpty = true := by
      rw [h]; rfl
    refine ⟨?_, ?_, ?_⟩
    · simp [process_matches, hemp, h]
    · intro hne; exact absurd h hne
    · intro _
      simp [process_matches, hemp]
  · have hemp : (MatchFinder.find_all b.grid).isEmpty = false := by
      cases hl : MatchFinder.find_all b.grid with
      | nil => exact absurd hl h
      | cons a l => rfl
    refine ⟨?_, ?_, ?_⟩
    · simp only [process_matches, hemp, Bool.false_eq_true, if_false]
      constructor
      · intro hcombo
        exfalso
        simp at hcombo
        omega
      · intro hnil; exact absurd hnil h
    · intro _
      simp only [process_matches, hemp, Bool.false_eq_true, if_false]
      refine ⟨?_, by trivial⟩
      rw [foldl_score_mul]
      ring
    · intro hnil; exact absurd hnil h

/-! ### Gravity (C2) -/

/-- Embeds one iteration of the inner loop of `GameBoard::apply_gravity`
(the bottom-up scan of one column): the state is the grid plus the
`write_y` cursor; `read_y` is the row being scanned.  The visual-node moves
of the source are presentation state, out of scope. -/
def gravityStep (x : Nat) (st : Grid × Nat) (read_y : Nat) : Grid × Nat :=
  if (st.1.get x read_y).isSome then
    (if read_y ≠ st.2 then
        match st.1.take x read_y with
        | (some s, g2) =>
          g2.set x st.2 (some { s with grid_pos := ((x : Int), (st.2 : Int)) })
        | (none, g2) => g2
      else st.1,
      st.2 - 1)
  else st

/-- One column of `apply_gravity`: scan `read_y` from the bottom row up,
with the write cursor starting at the bottom row (`saturating_sub` is `Nat`
subtraction). -/
def gravityColumn (g : Grid) (x : Nat) : Grid :=
  ((List.range g.height).reverse.foldl (gravityStep x) (g, g.height - 1)).1

/-- Embeds the grid transformation of `GameBoard::apply_gravity` (column by
column, left to right).  `animate_gravity` performs the same grid update. -/
def apply_gravity (g : Grid) : Grid :=
  (List.range g.width).foldl gravityColumn g

/-- The shape of a symbol: all of its data except the stored position
(gravity updates `grid_pos` of the symbols it moves). -/
def Symbol.shape (s : Symbol) : List SymbolType × Nat × Bool × Bool :=
  (s.faces, s.rotation_state, s.selected, s.marked_for_clear)

/-- Column `x` of the grid, read top to bottom. -/
def Grid.col (g : Grid) (x : Nat) : List (Option Symbol) :=
  (List.range g.height).map (fun y => g.get x y)

/-- Column `x` of the grid with the symbols' stored positions erased. -/
def Grid.colShapes (g : Grid) (x : Nat) :
    List (Option (List SymbolType × Nat × Bool × Bool)) :=
  (g.col x).map (Option.map Symbol.shape)

/-- List-level mirror of `gravityStep` on a single column. -/
def colStep {α : Type} (st : List (Option α) × Nat) (read_y : Nat) :
    List (Option α) × Nat :=
  match st.1.getD read_y none with
  | some a =>
    (if read_y ≠ st.2 then (st.1.set read_y none).set st.2 (some a) else st.1,
      st.2 - 1)
  | none => st

theorem Grid.col_length (g : Grid) (x : Nat) : (g.col x).length = g.height := by
  simp [Grid.col]

theorem Grid.colShapes_length (g : Grid) (x : Nat) :
    (g.colShapes x).length = g.height := by
  simp [Grid.colShapes, Grid.col]

theorem Grid.col_getElem? {g : Grid} {x y : Nat} (hy : y < g.height) :
    (g.col x)[y]? = some (g.get x y) := by
  simp [Grid.col, List.getElem?_range hy]

theorem Grid.colShapes_getElem? {g : Grid} {x y : Nat} (hy : y < g.height) :
    (g.colShapes x)[y]? = some ((g.get x y).map Symbol.shape) := by
  simp [Grid.colShapes, Grid.col_getElem? hy]

theorem Grid.colShapes_getD {g : Grid} {x y : Nat} (hy : y < g.height) :
    (g.colShapes x).getD y none = (g.get x y).map Symbol.shape := by
  rw [List.getD_eq_getElem?_getD, Grid.colShapes_getElem? hy]
  rfl

theorem Grid.colShapes_set {g : Grid} {x wy : Nat} (hwf : g.wf)
    (hx : x < g.width) (hwy : wy < g.height) (v : Option Symbol) :
    (g.set x wy v).colShapes x = (g.colShapes x).set wy (v.map Symbol.shape) := by
  apply List.ext_getElem?
  intro n
  by_cases hn : n < g.height
  · by_cases hnwy : n = wy
    · rw [hnwy]
      rw [Grid.colShapes_getElem? (g := g.set x wy v)
        (by rw [Grid.set_height]; exact hwy)]
      rw [Grid.get_set_self hwf hx hwy]
      rw [List.getElem?_set_self (by rw [Grid.colShapes_length]; exact hwy)]
    · rw [Grid.colShapes_getElem? (g := g.set x wy v)
        (by rw [Grid.set_height]; exact hn)]
      rw [Grid.get_set_ne (fun hcontra => hnwy hcontra.2.symm)]
      rw [List.getElem?_set_ne (fun hcontra => hnwy hcontra.symm)]
      rw [Grid.colShapes_getElem? hn]
  · have hn1 : ((g.set x wy v).colShapes x).length ≤ n := by
      rw [Grid.colShapes_length, Grid.set_height]
      omega
    have hn2 : ((g.colShapes x).set wy (v.map Symbol.shape)).length ≤ n := by
      rw [List.length_set, Grid.colShapes_length]
      omega
    rw [List.getElem?_eq_none hn1, List.getElem?_eq_none hn2]

theorem Grid.col_set_ne {g : Grid} {x x' y : Nat} (hne : x' ≠ x) (v : Option Symbol) :
    (g.set x y v).col x' = g.col x' := by
  apply List.ext_getElem?
  intro n
  by_cases hn : n < g.height
  · rw [Grid.col_getElem? (g := g.set x y v) (by rw [Grid.set_height]; exact hn)]
    rw [Grid.col_getElem? hn]
    rw [Grid.get_set_ne (fun hcontra => hne hcontra.1.symm)]
  · have hn1 : ((g.set x y v).col x').length ≤ n := by
      rw [Grid.col_length, Grid.set_height]
      omega
    have hn2 : (g.col x').length ≤ n := by
      rw [Grid.col_length]
      omega
    rw [List.getElem?_eq_none hn1, List.getElem?_eq_none hn2]

theorem gravityStep_bridge {x : Nat} {g : Grid} {wy read_y : Nat} (hwf : g.wf)
    (hx : x < g.width) (hry : read_y < g.height) (hwy : wy < g.height) :
    (gravityStep x (g, wy) read_y).1.wf ∧
    (gravityStep x (g, wy) read_y).1.width = g.width ∧
    (gravityStep x (g, wy) read_y).1.height = g.height ∧
    (gravityStep x (g, wy) read_y).2 ≤ wy ∧
    (gravityStep x (g, wy) read_y).1.colShapes x =
      (colStep (g.colShapes x, wy) read_y).1 ∧
    (gravityStep x (g, wy) read_y).2 = (colStep (g.colShapes x, wy) read_y).2 ∧
    (∀ x', x' ≠ x → (gravityStep x (g, wy) read_y).1.col x' = g.col x') := by
  have hlook : (g.colShapes x, wy).1.getD read_y none =
      (g.get x read_y).map Symbol.shape := Grid.colShapes_getD hry
  cases hg : g.get x read_y with
  | none =>
    have hstep : gravityStep x (g, wy) read_y = (g, wy) := by
      unfold gravityStep
      rw [hg]
      rfl
    have hcstep : colStep (g.colShapes x, wy) read_y = (g.colShapes x, wy) := by
      unfold colStep
      rw [hlook, hg]
      rfl
    rw [hstep, hcstep]
    exact ⟨hwf, rfl, rfl, Nat.le_refl _, rfl, rfl, fun _ _ => rfl⟩
  | some s =>
    by_cases hne : read_y ≠ wy
    · have hstep : gravityStep x (g, wy) read_y =
          ((g.set x read_y none).set x wy
            (some { s with grid_pos := ((x : Int), (wy : Int)) }), wy - 1) := by
        unfold gravityStep
        rw [hg, Grid.take_eq, hg]
        simp only [Option.isSome_some, if_true, if_pos hne]
      have hcstep : colStep (g.colShapes x, wy) read_y =
          (((g.colShapes x).set read_y none).set wy (some s.shape), wy - 1) := by
        unfold colStep
        rw [hlook, hg]
        simp only [Option.map_some', if_pos hne]
      rw [hstep, hcstep]
      have hwf1 := Grid.set_wf hwf x read_y (none : Option Symbol)
      refine ⟨Grid.set_wf hwf1 x wy _, ?_, ?_, by omega, ?_, rfl, ?_⟩
      · rw [Grid.set_width, Grid.set_width]
      · rw [Grid.set_height, Grid.set_height]
      · rw [Grid.colShapes_set hwf1 (by rw [Grid.set_width]; exact hx)
          (by rw [Grid.set_height]; exact hwy)]
        rw [Grid.colShapes_set hwf hx hry]
        rfl
      · intro x' hx'
        rw [Grid.col_set_ne hx', Grid.col_set_ne hx']
    · have hstep : gravityStep x (g, wy) read_y = (g, wy - 1) := by
        unfold gravityStep
        rw [hg]
        simp only [Option.isSome_some, if_true, if_neg hne]
      have hcstep : colStep (g.colShapes x, wy) read_y = (g.colShapes x, wy - 1) := by
        unfold colStep
        rw [hlook, hg]
        simp only [Option.map_some', if_neg hne]
      rw [hstep, hcstep]
      exact ⟨hwf, rfl, rfl, by omega, rfl, rfl, fun _ _ => rfl⟩

theorem gravityFold_bridge {x : Nat} :
    ∀ (ys : List Nat) (g : Grid) (wy : Nat), g.wf → x < g.width →
      (∀ y ∈ ys, y < g.height) → wy < g.height →
      ((ys.foldl (gravityStep x) (g, wy)).1.wf ∧
       (ys.foldl (gravityStep x) (g, wy)).1.width = g.width ∧
       (ys.foldl (gravityStep x) (g, wy)).1.height = g.height ∧
       (ys.foldl (gravityStep x) (g, wy)).2 < g.height ∧
       (ys.foldl (gravityStep x) (g, wy)).1.colShapes x =
         (ys.foldl colStep (g.colShapes x, wy)).1 ∧
       (ys.foldl (gravityStep x) (g, wy)).2 =
         (ys.foldl colStep (g.colShapes x, wy)).2 ∧
       (∀ x', x' ≠ x → (ys.foldl (gravityStep x) (g, wy)).1.col x' = g.col x')) := by
  intro ys
  induction ys with
  | nil =>
    intro g wy hwf hx _ hwy
    exact ⟨hwf, rfl, rfl, hwy, rfl, rfl, fun _ _ => rfl⟩
  | cons y ys ih =>
    intro g wy hwf hx hys hwy
    have hy : y < g.height := hys y (List.mem_cons_self y ys)
    obtain ⟨hwf1, hw1, hh1, hle1, hcs1, hwy1, hcol1⟩ :=
      gravityStep_bridge (x := x) hwf hx hy hwy
    rw [List.foldl_cons, List.foldl_cons]
    have hih := ih (gravityStep x (g, wy) y).1 (gravityStep x (g, wy) y).2
      hwf1 (by rw [hw1]; exact hx)
      (fun y' hy' => by rw [hh1]; exact hys y' (List.mem_cons_of_mem y hy'))
      (by rw [hh1]; omega)
    obtain ⟨hwfF, hwF, hhF, hwyF, hcsF, hwyeqF, hcolF⟩ := hih
    refine ⟨hwfF, by rw [hwF, hw1], by rw [hhF, hh1], by rw [hh1] at hwyF; exact hwyF,
      ?_, ?_, ?_⟩
    · rw [hcsF, hcs1, hwy1]
    · rw [hwyeqF, hcs1, hwy1]
    · intro x' hx'
      rw [hcolF x' hx', hcol1 x' hx']

theorem replicate_set_last {α : Type} :
    ∀ (m : Nat), 1 ≤ m → ∀ (v : Option α),
      (List.replicate m (none : Option α)).set (m - 1) v =
        List.replicate (m - 1) (none : Option α) ++ [v] := by
  intro m
  induction m with
  | zero => intro h; omega
  | succ m ih =>
    intro _ v
    cases Nat.eq_zero_or_pos m with
    | inl h0 => subst h0; rfl
    | inr hpos =>
      rw [show m + 1 - 1 = (m - 1) + 1 from by omega]
      rw [List.replicate_succ]
      rw [List.set_cons_succ]
      rw [ih hpos v]
      rw [List.replicate_succ]
      rfl

theorem set_append_cons_self {α : Type} (l1 : List α) (b : α) (l2 : List α) (v : α) :
    (l1 ++ (b :: l2)).set l1.length v = l1 ++ (v :: l2) := by
  rw [List.set_append_right _ _ (Nat.le_refl _), Nat.sub_self, List.set_cons_zero]

theorem set_append_cons_tail {α : Type} (l1 : List α) (b : α) (l2 : List α)
    (j : Nat) (v : α) :
    (l1 ++ (b :: l2)).set (l1.length + (j + 1)) v = l1 ++ (b :: l2.set j v) := by
  rw [List.set_append_right _ _ (by omega)]
  rw [show l1.length + (j + 1) - l1.length = j + 1 from by omega]
  rw [List.set_cons_succ]

theorem colStep_inv_step {α : Type} (c0 : List (Option α)) (u : Nat)
    (hu : u < c0.length) (c : List (Option α)) (wy : Nat)
    (hc : c = c0.take (u + 1) ++
      (List.replicate (c0.length - (u + 1) - ((c0.drop (u + 1)).filterMap id).length) none ++
        ((c0.drop (u + 1)).filterMap id).map some))
    (hw : wy = c0.length - 1 - ((c0.drop (u + 1)).filterMap id).length) :
    (colStep (c, wy) u).1 = c0.take u ++
      (List.replicate (c0.length - u - ((c0.drop u).filterMap id).length) none ++
        ((c0.drop u).filterMap id).map some) ∧
    (u = 0 ∨ (colStep (c, wy) u).2 =
      c0.length - 1 - ((c0.drop u).filterMap id).length) := by
  have hk : ((c0.drop (u + 1)).filterMap id).length ≤ c0.length - (u + 1) := by
    have h1 := List.length_filterMap_le id (c0.drop (u + 1))
    have h2 : (c0.drop (u + 1)).length = c0.length - (u + 1) := List.length_drop _ _
    omega
  have htake : c0.take (u + 1) = c0.take u ++ [c0[u]] := by
    rw [List.take_succ, List.getElem?_eq_getElem hu]
    rfl
  have htakelen : (c0.take u).length = u := List.length_take_of_le (by omega)
  have hdrop : c0.drop u = c0[u] :: c0.drop (u + 1) := List.drop_eq_getElem_cons hu
  have hcform : c = c0.take u ++ (c0[u] ::
      (List.replicate (c0.length - (u + 1) - ((c0.drop (u + 1)).filterMap id).length) none ++
        ((c0.drop (u + 1)).filterMap id).map some)) := by
    rw [hc, htake, List.append_assoc]
    rfl
  have hlook : c.getD u none = c0[u] := by
    rw [hcform, List.getD_eq_getElem?_getD,
      List.getElem?_append_right (Nat.le_of_eq htakelen), htakelen, Nat.sub_self]
    simp
  cases hval : c0[u] with
  | none =>
    have hstep : colStep (c, wy) u = (c, wy) := by
      unfold colStep
      rw [hlook, hval]
    have hfm : (c0.drop u).filterMap id = (c0.drop (u + 1)).filterMap id := by
      rw [hdrop, hval, List.filterMap_cons_none (show id (none : Option α) = none from rfl)]
    constructor
    · rw [hstep, hcform, hval, hfm]
      rw [show c0.length - u - ((c0.drop (u + 1)).filterMap id).length =
        (c0.length - (u + 1) - ((c0.drop (u + 1)).filterMap id).length) + 1 from by omega]
      rw [List.replicate_succ]
      rfl
    · right
      rw [hstep, hfm]
      exact hw
  | some a =>
    have hfm : (c0.drop u).filterMap id = a :: (c0.drop (u + 1)).filterMap id := by
      rw [hdrop, hval, List.filterMap_cons_some (show id (some a) = some a from rfl)]
    have hfmlen : ((c0.drop u).filterMap id).length =
        ((c0.drop (u + 1)).filterMap id).length + 1 := by
      rw [hfm, List.length_cons]
    by_cases hne : u ≠ wy
    · have hstep : colStep (c, wy) u = ((c.set u none).set wy (some a), wy - 1) := by
        simp only [colStep, hlook, hval]
        show (if u ≠ wy then (c.set u none).set wy (some a) else c, wy - 1) = _
        rw [if_pos hne]
      have hm1 : 1 ≤ c0.length - (u + 1) - ((c0.drop (u + 1)).filterMap id).length := by
        omega
      have hs1 : c.set u none = c0.take u ++ (none ::
          (List.replicate
              (c0.length - (u + 1) - ((c0.drop (u + 1)).filterMap id).length) none ++
            ((c0.drop (u + 1)).filterMap id).map some)) := by
        have hgen := set_append_cons_self (c0.take u) (some a)
          (List.replicate
              (c0.length - (u + 1) - ((c0.drop (u + 1)).filterMap id).length) none ++
            ((c0.drop (u + 1)).filterMap id).map some) none
        rw [htakelen] at hgen
        rw [hcform, hval]
        exact hgen
      have hs2 : (c.set u none).set wy (some a) = c0.take u ++ (none ::
          ((List.replicate
              (c0.length - (u + 1) - ((c0.drop (u + 1)).filterMap id).length) none ++
            ((c0.drop (u + 1)).filterMap id).map some).set
              (c0.length - (u + 1) - ((c0.drop (u + 1)).filterMap id).length - 1)
              (some a))) := by
        have hgen := set_append_cons_tail (c0.take u) (none : Option α)
          (List.replicate
              (c0.length - (u + 1) - ((c0.drop (u + 1)).filterMap id).length) none ++
            ((c0.drop (u + 1)).filterMap id).map some)
          (c0.length - (u + 1) - ((c0.drop (u + 1)).filterMap id).length - 1) (some a)
        rw [htakelen] at hgen
        rw [hs1]
        rw [show wy = u +
          ((c0.length - (u + 1) - ((c0.drop (u + 1)).filterMap id).length - 1) + 1)
          from by omega]
        exact hgen
      have hs3 : (List.replicate
            (c0.length - (u + 1) - ((c0.drop (u + 1)).filterMap id).length) none ++
          ((c0.drop (u + 1)).filterMap id).map some).set
            (c0.length - (u + 1) - ((c0.drop (u + 1)).filterMap id).length - 1)
            (some a) =
          (List.replicate
              (c0.length - (u + 1) - ((c0.drop (u + 1)).filterMap id).length - 1) none ++
            [some a]) ++ ((c0.drop (u + 1)).filterMap id).map some := by
        rw [List.set_append_left _ _ (by rw [List.length_replicate]; omega)]
        rw [replicate_set_last _ hm1]
      constructor
      · rw [hstep, hs2, hs3, hfm, List.map_cons]
        rw [List.length_cons]
        rw [show c0.length - u - (((c0.drop (u + 1)).filterMap id).length + 1) =
          (c0.length - (u + 1) - ((c0.drop (u + 1)).filterMap id).length - 1) + 1
          from by omega]
        rw [List.replicate_succ]
        rw [List.append_assoc, List.singleton_append]
        rfl
      · right
        rw [hstep, hfmlen]
        show wy - 1 = _
        omega
    · push_neg at hne
      have hstep : colStep (c, wy) u = (c, wy - 1) := by
        simp only [colStep, hlook, hval]
        show (if u ≠ wy then (c.set u none).set wy (some a) else c, wy - 1) = _
        rw [if_neg (show ¬u ≠ wy from by omega)]
      have hM0 : c0.length - (u + 1) - ((c0.drop (u + 1)).filterMap id).length = 0 := by
        omega
      constructor
      · rw [hstep, hcform, hval, hM0, hfm, List.map_cons, List.length_cons]
        rw [show c0.length - u - (((c0.drop (u + 1)).filterMap id).length + 1) = 0
          from by omega]
        rfl
      · rcases Nat.eq_zero_or_pos u with h0 | hpos
        · exact Or.inl h0
        · right
          rw [hstep, hfmlen]
          show wy - 1 = _
          omega

theorem colStep_fold_inv {α : Type} :
    ∀ (u : Nat) (c0 c : List (Option α)) (wy : Nat),
      u ≤ c0.length →
      c = c0.take u ++
        (List.replicate (c0.length - u - ((c0.drop u).filterMap id).length) none ++
          ((c0.drop u).filterMap id).map some) →
      (u = 0 ∨ wy = c0.length - 1 - ((c0.drop u).filterMap id).length) →
      ((List.range u).reverse.foldl colStep (c, wy)).1 =
        List.replicate (c0.length - (c0.filterMap id).length) none ++
          (c0.filterMap id).map some := by
  intro u
  induction u with
  | zero =>
    intro c0 c wy _ hc _
    simpa using hc
  | succ u ih =>
    intro c0 c wy hu hc hw
    rcases hw with h0 | hw
    · cases h0
    · rw [show (List.range (u + 1)).reverse = u :: (List.range u).reverse from by
        rw [List.range_succ, List.reverse_append]; rfl]
      rw [List.foldl_cons]
      obtain ⟨hc', hw'⟩ := colStep_inv_step c0 u (by omega) c wy hc hw
      exact ih c0 _ _ (by omega) hc' hw'

theorem gravityColumn_spec {g : Grid} {x : Nat} (hwf : g.wf) (hx : x < g.width) :
    (gravityColumn g x).colShapes x =
      List.replicate (g.height - ((g.colShapes x).filterMap id).length) none ++
        ((g.colShapes x).filterMap id).map some ∧
    (gravityColumn g x).wf ∧ (gravityColumn g x).width = g.width ∧
    (gravityColumn g x).height = g.height ∧
    (∀ x', x' ≠ x → (gravityColumn g x).col x' = g.col x') := by
  rcases Nat.eq_zero_or_pos g.height with hh | hh
  · have hnil : gravityColumn g x = g := by
      unfold gravityColumn
      rw [hh]
      rfl
    rw [hnil]
    refine ⟨?_, hwf, rfl, rfl, fun _ _ => rfl⟩
    have h0 : g.colShapes x = [] := by
      have hl := Grid.colShapes_length g x
      rw [hh] at hl
      exact List.length_eq_zero.mp hl
    rw [h0, hh]
    rfl
  · have hys : ∀ y ∈ (List.range g.height).reverse, y < g.height := by
      intro y hy
      rw [List.mem_reverse, List.mem_range] at hy
      exact hy
    have hwy : g.height - 1 < g.height := by omega
    obtain ⟨hwfF, hwF, hhF, _, hcsF, _, hcolF⟩ :=
      gravityFold_bridge (x := x) (List.range g.height).reverse g (g.height - 1)
        hwf hx hys hwy
    refine ⟨?_, hwfF, hwF, hhF, hcolF⟩
    have hlen := Grid.colShapes_length g x
    have hcinit : g.colShapes x = (g.colShapes x).take g.height ++
        (List.replicate ((g.colShapes x).length - g.height -
            (((g.colShapes x).drop g.height).filterMap id).length) none ++
          (((g.colShapes x).drop g.height).filterMap id).map some) := by
      rw [← hlen]
      simp
    have hwinit : g.height = 0 ∨ g.height - 1 = (g.colShapes x).length - 1 -
        (((g.colShapes x).drop g.height).filterMap id).length := by
      right
      rw [← hlen]
      simp
    have hinv := colStep_fold_inv g.height (g.colShapes x) (g.colShapes x)
      (g.height - 1) (Nat.le_of_eq hlen.symm) hcinit hwinit
    rw [hlen] at hinv
    show (gravityColumn g x).colShapes x = _
    unfold gravityColumn
    rw [hcsF]
    exact hinv

theorem apply_gravity_cols :
    ∀ (xs : List Nat) (g : Grid), g.wf → (∀ x' ∈ xs, x' < g.width) →
      ((xs.foldl gravityColumn g).wf ∧
       (xs.foldl gravityColumn g).width = g.width ∧
       (xs.foldl gravityColumn g).height = g.height ∧
       (∀ x, x ∉ xs → (xs.foldl gravityColumn g).col x = g.col x) ∧
       (∀ x, x ∈ xs → xs.Nodup →
         (xs.foldl gravityColumn g).colShapes x =
           List.replicate (g.height - ((g.colShapes x).filterMap id).length) none ++
             ((g.colShapes x).filterMap id).map some)) := by
  intro xs
  induction xs with
  | nil =>
    intro g hwf _
    exact ⟨hwf, rfl, rfl, fun _ _ => rfl, fun x hx _ => absurd hx (List.not_mem_nil x)⟩
  | cons x0 xs ih =>
    intro g hwf hxs
    have hx0 : x0 < g.width := hxs x0 (List.mem_cons_self x0 xs)
    obtain ⟨hcs0, hwf0, hw0, hh0, hcol0⟩ := gravityColumn_spec hwf hx0
    rw [List.foldl_cons]
    obtain ⟨hwfF, hwF, hhF, hcolF, hcsF⟩ := ih (gravityColumn g x0) hwf0
      (fun x' hx' => by rw [hw0]; exact hxs x' (List.mem_cons_of_mem x0 hx'))
    refine ⟨hwfF, by rw [hwF, hw0], by rw [hhF, hh0], ?_, ?_⟩
    · intro x hx
      have hx1 : x ∉ xs := fun hmem => hx (List.mem_cons_of_mem x0 hmem)
      have hx2 : x ≠ x0 := fun heq => hx (heq ▸ List.mem_cons_self x0 xs)
      rw [hcolF x hx1, hcol0 x hx2]
    · intro x hx hnodup
      have hnd := List.nodup_cons.mp hnodup
      rcases List.mem_cons.mp hx with heq | hmem
      · subst heq
        have hpres : (xs.foldl gravityColumn (gravityColumn g x)).colShapes x =
            (gravityColumn g x).colShapes x := by
          unfold Grid.colShapes
          rw [hcolF x hnd.1]
        rw [hpres, hcs0]
      · have hxne : x ≠ x0 := fun heq => hnd.1 (heq ▸ hmem)
        have hcsx : (gravityColumn g x0).colShapes x = g.colShapes x := by
          unfold Grid.colShapes
          rw [hcol0 x hxne]
        rw [hcsF x hmem hnd.2, hcsx, hh0]

/-- C2: after `apply_gravity`, every column is the stable bottom-compaction
of its previous contents: the vacated top cells are empty, the occupied
cells sit contiguously at the bottom in their previous top-to-bottom order
(positions erased, since gravity rewrites `grid_pos` of moved symbols) —
equivalently, the final occupancy is what a bottom-to-top cursor writing
the occupied cells bottom-to-top produces. -/
theorem apply_gravity_spec (g : Grid) (x : Nat) (hwf : g.wf) (hx : x < g.width) :
    (apply_gravity g).width = g.width ∧ (apply_gravity g).height = g.height ∧
    (apply_gravity g).colShapes x =
      List.replicate (g.height - ((g.colShapes x).filterMap id).length) none ++
        ((g.colShapes x).filterMap id).map some := by
  unfold apply_gravity
  obtain ⟨_, hw, hh, _, hcs⟩ := apply_gravity_cols (List.range g.width) g hwf
    (fun x' hx' => List.mem_range.mp hx')
  exact ⟨hw, hh, hcs x (List.mem_range.mpr hx) (List.nodup_range g.width)⟩

/-- Concrete 1-wide, 3-tall grid with an occupied top cell, an empty middle
cell and an occupied bottom cell. -/
def gravityDemo : Grid :=
  ((Grid.new 1 3).set 0 0 (some (Symbol.with_type (0, 0) .Red))).set 0 2
    (some (Symbol.with_type (0, 2) .Blue))

/-- Closed witness for the gravity claim at a concrete grid with a gap. -/
theorem apply_gravity_spec_witness :
    (apply_gravity gravityDemo).width = gravityDemo.width ∧
    (apply_gravity gravityDemo).height = gravityDemo.height ∧
    (apply_gravity gravityDemo).colShapes 0 =
      List.replicate (gravityDemo.height -
          ((gravityDemo.colShapes 0).filterMap id).length) none ++
        ((gravityDemo.colShapes 0).filterMap id).map some :=
  apply_gravity_spec gravityDemo 0 (by decide) (by decide)

/-! ### Random fill (C9) -/

/-- The redraw condition of `fill_random`: placing current type `t` at
`(x, y)` would complete an immediate 3-run with the two already-placed
cells to the left, or with the two above (`would_match_h || would_match_v`
in the source). -/
def badDraw (g : Grid) (x y : Nat) (t : SymbolType) : Bool :=
  (decide (2 ≤ x) &&
      (g.get (x - 1) y).any (fun s => decide (s.current_type = t)) &&
      (g.get (x - 2) y).any (fun s => decide (s.current_type = t))) ||
  (decide (2 ≤ y) &&
      (g.get x (y - 1)).any (fun s => decide (s.current_type = t)) &&
      (g.get x (y - 2)).any (fun s => decide (s.current_type = t)))

/-- The resampling loop of `fill_random`: `fuel` is `10 - attempts`, `t`
the type drawn so far, `k` the rng cursor.  While the draw is bad and
attempts remain, redraw; the last draw is accepted unchecked when the
attempts are exhausted. -/
def pickLoop (g : Grid) (x y : Nat) (rng : Nat → SymbolType) :
    Nat → SymbolType → Nat → SymbolType × Nat
  | 0, t, k => (t, k)
  | fuel+1, t, k =>
    if badDraw g x y t then pickLoop g x y rng fuel (rng k) (k + 1)
    else (t, k)

/-- One cell of `fill_random`: draw, resample up to 10 times, place a
`with_type` symbol. -/
def fillCell (rng : Nat → SymbolType) (y : Nat) (st : Grid × Nat) (x : Nat) :
    Grid × Nat :=
  match pickLoop st.1 x y rng 10 (rng st.2) (st.2 + 1) with
  | (t, k2) => (st.1.set x y (some (Symbol.with_type ((x : Int), (y : Int)) t)), k2)

/-- One row of `fill_random` (the inner `for x` loop). -/
def fillRow (rng : Nat → SymbolType) (st : Grid × Nat) (y : Nat) : Grid × Nat :=
  (List.range st.1.width).foldl (fillCell rng y) st

/-- Embeds `Grid::fill_random`: visit the cells in row-major order; `rng`
is the stream of values drawn by `SymbolType::random()` and `k` the
position in that stream. -/
def Grid.fill_random (g : Grid) (rng : Nat → SymbolType) (k : Nat) : Grid × Nat :=
  (List.range g.height).foldl (fillRow rng) (g, k)

/-- The candidates the resampling loop considers: candidate 0 is the
initial draw, candidate (i+1) the i-th redraw. -/
def candidate (rng : Nat → SymbolType) (t : SymbolType) (k : Nat) : Nat → SymbolType
  | 0 => t
  | i + 1 => rng (k + i)

theorem candidate_shift (rng : Nat → SymbolType) (t : SymbolType) (k : Nat) :
    ∀ j, candidate rng (rng k) (k + 1) j = candidate rng t k (j + 1)
  | 0 => rfl
  | j + 1 => by
    show rng (k + 1 + j) = rng (k + (j + 1))
    exact congrArg rng (by omega)

theorem pickLoop_spec (g : Grid) (x y : Nat) (rng : Nat → SymbolType) :
    ∀ (fuel : Nat) (t : SymbolType) (k : Nat),
      ∃ j, j ≤ fuel ∧ pickLoop g x y rng fuel t k = (candidate rng t k j, k + j) ∧
        (∀ i, i < j → badDraw g x y (candidate rng t k i) = true) ∧
        (j < fuel → badDraw g x y (candidate rng t k j) = false) := by
  intro fuel
  induction fuel with
  | zero =>
    intro t k
    exact ⟨0, Nat.le_refl 0, rfl, fun i hi => absurd hi (by omega),
      fun h => absurd h (by omega)⟩
  | succ fuel ih =>
    intro t k
    by_cases hbad : badDraw g x y t = true
    · obtain ⟨j, hj, heq, hall, hlast⟩ := ih (rng k) (k + 1)
      refine ⟨j + 1, by omega, ?_, ?_, ?_⟩
      · rw [pickLoop, if_pos hbad, heq]
        exact Prod.ext (candidate_shift rng t k j) (by omega)
      · intro i hi
        cases i with
        | zero => exact hbad
        | succ i =>
          have hbi := hall i (by omega)
          rw [candidate_shift rng t k i] at hbi
          exact hbi
      · intro hjf
        have hbl := hlast (by omega)
        rw [candidate_shift rng t k j] at hbl
        exact hbl
    · refine ⟨0, by omega, ?_, fun i hi => absurd hi (by omega),
        fun _ => by simpa using hbad⟩
      rw [pickLoop, if_neg hbad]
      rfl

theorem fillCell_props {rng : Nat → SymbolType} {y : Nat} {st : Grid × Nat} {x : Nat}
    (hwf : st.1.wf) :
    (fillCell rng y st x).1.wf ∧
    (fillCell rng y st x).1.width = st.1.width ∧
    (fillCell rng y st x).1.height = st.1.height ∧
    (∀ a b, (st.1.get a b).isSome = true →
      ((fillCell rng y st x).1.get a b).isSome = true) ∧
    (x < st.1.width → y < st.1.height →
      ((fillCell rng y st x).1.get x y).isSome = true) := by
  have hfc : (fillCell rng y st x).1 = st.1.set x y
      (some (Symbol.with_type ((x : Int), (y : Int))
        (pickLoop st.1 x y rng 10 (rng st.2) (st.2 + 1)).1)) := rfl
  rw [hfc]
  refine ⟨Grid.set_wf hwf x y _, Grid.set_width _ _ _ _, Grid.set_height _ _ _ _, ?_, ?_⟩
  · intro a b hab
    by_cases hax : a = x ∧ b = y
    · by_cases hin : x < st.1.width ∧ y < st.1.height
      · rw [hax.1, hax.2, Grid.get_set_self hwf hin.1 hin.2]
        rfl
      · unfold Grid.set
        rw [if_neg hin]
        exact hab
    · rw [Grid.get_set_ne (fun hcontra => hax ⟨hcontra.1.symm, hcontra.2.symm⟩)]
      exact hab
  · intro hx hy
    rw [Grid.get_set_self hwf hx hy]
    rfl

theorem fillCells_fold {rng : Nat → SymbolType} {y : Nat} :
    ∀ (xs : List Nat) (st : Grid × Nat), st.1.wf →
      ((xs.foldl (fillCell rng y) st).1.wf ∧
       (xs.foldl (fillCell rng y) st).1.width = st.1.width ∧
       (xs.foldl (fillCell rng y) st).1.height = st.1.height ∧
       (∀ a b, (st.1.get a b).isSome = true →
         ((xs.foldl (fillCell rng y) st).1.get a b).isSome = true) ∧
       (∀ x, x ∈ xs → x < st.1.width → y < st.1.height →
         ((xs.foldl (fillCell rng y) st).1.get x y).isSome = true)) := by
  intro xs
  induction xs with
  | nil =>
    intro st hwf
    exact ⟨hwf, rfl, rfl, fun _ _ h => h, fun x hx => absurd hx (List.not_mem_nil x)⟩
  | cons x0 xs ih =>
    intro st hwf
    obtain ⟨hwf1, hw1, hh1, hmono1, hself1⟩ := @fillCell_props rng y st x0 hwf
    rw [List.foldl_cons]
    obtain ⟨hwfF, hwF, hhF, hmonoF, hselfF⟩ := ih (fillCell rng y st x0) hwf1
    refine ⟨hwfF, by rw [hwF, hw1], by rw [hhF, hh1], ?_, ?_⟩
    · intro a b hab
      exact hmonoF a b (hmono1 a b hab)
    · intro x hx hxw hyh
      rcases List.mem_cons.mp hx with heq | hmem
      · subst heq
        exact hmonoF x y (hself1 hxw hyh)
      · exact hselfF x hmem (by rw [hw1]; exact hxw) (by rw [hh1]; exact hyh)

theorem fillRows_fold {rng : Nat → SymbolType} :
    ∀ (ys : List Nat) (st : Grid × Nat), st.1.wf →
      ((ys.foldl (fillRow rng) st).1.wf ∧
       (ys.foldl (fillRow rng) st).1.width = st.1.width ∧
       (ys.foldl (fillRow rng) st).1.height = st.1.height ∧
       (∀ a b, (st.1.get a b).isSome = true →
         ((ys.foldl (fillRow rng) st).1.get a b).isSome = true) ∧
       (∀ y, y ∈ ys → ∀ x, x < st.1.width → y < st.1.height →
         ((ys.foldl (fillRow rng) st).1.get x y).isSome = true)) := by
  intro ys
  induction ys with
  | nil =>
    intro st hwf
    exact ⟨hwf, rfl, rfl, fun _ _ h => h, fun y hy => absurd hy (List.not_mem_nil y)⟩
  | cons y0 ys ih =>
    intro st hwf
    have hrow : (List.range st.1.width).foldl (fillCell rng y0) st = fillRow rng st y0 := rfl
    obtain ⟨hwf1, hw1, hh1, hmono1, hself1⟩ :=
      @fillCells_fold rng y0 (List.range st.1.width) st hwf
    rw [hrow] at hwf1 hw1 hh1 hmono1 hself1
    rw [List.foldl_cons]
    obtain ⟨hwfF, hwF, hhF, hmonoF, hselfF⟩ := ih (fillRow rng st y0) hwf1
    refine ⟨hwfF, by rw [hwF, hw1], by rw [hhF, hh1], ?_, ?_⟩
    · intro a b hab
      exact hmonoF a b (hmono1 a b hab)
    · intro y hy x hxw hyh
      rcases List.mem_cons.mp hy with heq | hmem
      · subst heq
        exact hmonoF x y (hself1 x (List.mem_range.mpr hxw) hxw hyh)
      · exact hselfF y hmem x (by rw [hw1]; exact hxw) (by rw [hh1]; exact hyh)

/-- C9: `fill_random` visits the cells row-major (the nested fold) and per
cell draws a type, redrawing at most 10 times while the draw would
complete a 3-run with the two placed cells to the left or the two above,
accepting the last draw when the attempts are exhausted (the `pickLoop`
characterization); after it returns, every cell of the grid is occupied. -/
theorem fill_random_spec (g : Grid) (rng : Nat → SymbolType) (k : Nat) (hwf : g.wf) :
    ((g.fill_random rng k).1.wf ∧
     (g.fill_random rng k).1.width = g.width ∧
     (g.fill_random rng k).1.height = g.height ∧
     (∀ x y, x < g.width → y < g.height →
       ((g.fill_random rng k).1.get x y).isSome = true)) ∧
    (∀ (g' : Grid) (x y : Nat) (t : SymbolType) (k' : Nat),
      ∃ j, j ≤ 10 ∧ pickLoop g' x y rng 10 t k' = (candidate rng t k' j, k' + j) ∧
        (∀ i, i < j → badDraw g' x y (candidate rng t k' i) = true) ∧
        (j < 10 → badDraw g' x y (candidate rng t k' j) = false)) := by
  refine ⟨?_, fun g' x y t k' => pickLoop_spec g' x y rng 10 t k'⟩
  have hfold := @fillRows_fold rng (List.range g.height) (g, k) hwf
  obtain ⟨hwfF, hwF, hhF, _, hselfF⟩ := hfold
  have hfr : g.fill_random rng k = (List.range g.height).foldl (fillRow rng) (g, k) := rfl
  rw [hfr]
  exact ⟨hwfF, hwF, hhF, fun x y hx hy => hselfF y (List.mem_range.mpr hy) x hx hy⟩

/-- Closed witness for the fill claim: a concrete 2×2 fill with a constant
rng stream leaves cell (0, 0) occupied. -/
theorem fill_random_spec_witness :
    (((Grid.new 2 2).fill_random (fun _ => SymbolType.Red) 0).1.get 0 0).isSome = true :=
  (fill_random_spec (Grid.new 2 2) (fun _ => SymbolType.Red) 0 (by decide)).1.2.2.2 0 0
    (by decide) (by decide)

/-- Closed witness for the combo claim on a concrete matchless board. -/
theorem process_matches_combo_witness :
    ((process_matches
        { grid := Grid.new 1 1, score := 0, combo := 1, state := .Ready,
          selected_pos := none }).combo = 1 ↔
      MatchFinder.find_all (Grid.new 1 1) = []) :=
  (process_matches_combo
    { grid := Grid.new 1 1, score := 0, combo := 1, state := .Ready, selected_pos := none }
    (by decide)).1

end Match3
